import Mathlib

/-!
# Verification of the session/state-transition engine of a Slack check-in bot

This file gives a shallow embedding, in Lean 4, of the core of the
repository: the check-in / checkout / break / status-update lifecycle
(`src/database.ts`, `src/calendar.ts`), its helper functions
(`src/helper.ts`, `src/constants.ts`), and the idle-reminder scheduler
(`src/database.ts`).

Modelling conventions:
* JavaScript `Date` values are modelled by their `getTime()` value, an
  integer number of milliseconds (`Int`).
* Firestore is modelled as lists of documents per collection; `set`
  overwrites the document with the same key, `update` on a missing
  document throws, `set` with `merge: true` merges field-by-field, and
  (because the client is configured with `ignoreUndefinedProperties: true`)
  an `undefined` field in an update payload is dropped, leaving any old
  value in place.
* `Math.round(x)` is `⌊x + 1/2⌋`.  Every rounding in the source has the
  shape `Math.round(e / 60000)` or `Math.round(e / 60000 - k)` with `k`
  an integer, so we work in exact integer arithmetic with
  `jsRoundDiv e 60000` resp. `jsRoundDiv (e - 60000*k) 60000` below.
* Floating-point error is ignored (all quantities involved are exact).
-/

/-- JavaScript `Math.round (a / b)` for integers `a` and positive `b`,
computed in exact integer arithmetic: `⌊a/b + 1/2⌋ = ⌊(2a+b)/(2b)⌋`
(`Int./` is Euclidean division, which is floor division for a positive
divisor). -/
def jsRoundDiv (a b : Int) : Int :=
  (2 * a + b) / (2 * b)

/-- JavaScript truthiness of an optional string (`undefined` and `""` are
falsy). -/
def strTruthy : Option String → Bool
  | none => false
  | some s => s ≠ ""

/-! ## Decimal rendering of numbers (for identifier generation)

`helper.ts` builds identifiers with template literals such as
`` `break_${Date.now()}` ``, i.e. it renders the timestamp in decimal.
This is `Int.repr` / `Nat.repr` in Lean.  The theorems about identifier
uniqueness need that rendering to be injective and to produce no
underscore, which we prove here from first principles (core's
`Nat.toDigitsCore` is fuel-based, so we first rewrite it into the
structural function `decDigits`). -/

/-- The base-10 digit characters of a natural number, most significant
first. -/
def decDigits (n : Nat) : List Char :=
  if n < 10 then [Nat.digitChar n]
  else decDigits (n / 10) ++ [Nat.digitChar (n % 10)]
decreasing_by exact Nat.div_lt_self (by omega) (by omega)

theorem decDigits_def (n : Nat) :
    decDigits n = if n < 10 then [Nat.digitChar n]
      else decDigits (n / 10) ++ [Nat.digitChar (n % 10)] := by
  rw [decDigits]

theorem toDigitsCore_eq_decDigits :
    ∀ (fuel n : Nat) (ds : List Char), n < fuel →
      Nat.toDigitsCore 10 fuel n ds = decDigits n ++ ds := by
  intro fuel
  induction fuel with
  | zero => intro n ds h; omega
  | succ f ih =>
      intro n ds h
      rw [Nat.toDigitsCore, decDigits_def]
      by_cases h10 : n < 10
      · have hdiv : n / 10 = 0 := Nat.div_eq_of_lt h10
        simp [hdiv, h10, Nat.mod_eq_of_lt h10]
      · have hdiv : n / 10 ≠ 0 := by omega
        have hlt : n / 10 < f := by omega
        simp only [hdiv, if_false, h10, if_false]
        rw [ih (n / 10) (Nat.digitChar (n % 10) :: ds) hlt]
        simp

theorem natRepr_eq (n : Nat) : Nat.repr n = (decDigits n).asString := by
  unfold Nat.repr Nat.toDigits
  rw [toDigitsCore_eq_decDigits n.succ n [] (Nat.lt_succ_self n)]
  simp

/-- Numeric value of a digit character. -/
def digitVal (c : Char) : Nat := c.toNat - 48

theorem digitVal_digitChar {d : Nat} (h : d < 10) :
    digitVal (Nat.digitChar d) = d := by
  interval_cases d <;> rfl

theorem digitChar_isDigit {d : Nat} (h : d < 10) :
    (Nat.digitChar d).isDigit = true := by
  interval_cases d <;> rfl

/-- Reading a digit list back as a number (left inverse of `decDigits`). -/
def decValue (l : List Char) : Nat :=
  l.foldl (fun a c => a * 10 + digitVal c) 0

theorem decValue_append_singleton (l : List Char) (c : Char) :
    decValue (l ++ [c]) = decValue l * 10 + digitVal c := by
  simp [decValue, List.foldl_append]

theorem decValue_decDigits (n : Nat) : decValue (decDigits n) = n := by
  induction n using Nat.strong_induction_on with
  | _ n ih =>
      rw [decDigits_def]
      by_cases h10 : n < 10
      · simp [h10, decValue, digitVal_digitChar h10]
      · have hlt : n / 10 < n := Nat.div_lt_self (by omega) (by omega)
        simp only [h10, if_false]
        rw [decValue_append_singleton, ih (n / 10) hlt,
          digitVal_digitChar (Nat.mod_lt n (by omega))]
        omega

theorem decDigits_isDigit (n : Nat) :
    ∀ c ∈ decDigits n, c.isDigit = true := by
  induction n using Nat.strong_induction_on with
  | _ n ih =>
      rw [decDigits_def]
      by_cases h10 : n < 10
      · simp only [h10, if_true, List.mem_singleton]
        intro c hc; subst hc; exact digitChar_isDigit h10
      · have hlt : n / 10 < n := Nat.div_lt_self (by omega) (by omega)
        simp only [h10, if_false, List.mem_append, List.mem_singleton]
        rintro c (hc | hc)
        · exact ih (n / 10) hlt c hc
        · subst hc; exact digitChar_isDigit (Nat.mod_lt n (by omega))

theorem natRepr_injective : Function.Injective Nat.repr := by
  intro a b hab
  rw [natRepr_eq, natRepr_eq] at hab
  have : decDigits a = decDigits b := by
    have := congrArg String.data hab
    simpa [List.asString] using this
  have := congrArg decValue this
  rwa [decValue_decDigits, decValue_decDigits] at this

theorem natRepr_isDigit (n : Nat) :
    ∀ c ∈ (Nat.repr n).data, c.isDigit = true := by
  rw [natRepr_eq]
  simpa [List.asString] using decDigits_isDigit n

theorem underscore_not_mem_natRepr (n : Nat) : '_' ∉ (Nat.repr n).data := by
  intro h
  have := natRepr_isDigit n '_' h
  simp [Char.isDigit] at this

theorem intRepr_injective : Function.Injective Int.repr := by
  intro a b hab
  cases a with
  | ofNat m =>
      cases b with
      | ofNat k =>
          have := @natRepr_injective m k hab
          simp [this]
      | negSucc k =>
          exfalso
          have hm : Int.repr (Int.ofNat m) = Nat.repr m := rfl
          have hk : Int.repr (Int.negSucc k) = "-" ++ Nat.repr (k + 1) := rfl
          rw [hm, hk] at hab
          have := congrArg String.data hab
          rw [String.data_append] at this
          have hmm : '-' ∈ (Nat.repr m).data := by
            rw [this]; simp [String.data]
          have := natRepr_isDigit m '-' hmm
          simp [Char.isDigit] at this
  | negSucc m =>
      cases b with
      | ofNat k =>
          exfalso
          have hm : Int.repr (Int.negSucc m) = "-" ++ Nat.repr (m + 1) := rfl
          have hk : Int.repr (Int.ofNat k) = Nat.repr k := rfl
          rw [hm, hk] at hab
          have := congrArg String.data hab
          rw [String.data_append] at this
          have hmm : '-' ∈ (Nat.repr k).data := by
            rw [← this]; simp [String.data]
          have := natRepr_isDigit k '-' hmm
          simp [Char.isDigit] at this
      | negSucc k =>
          have hm : Int.repr (Int.negSucc m) = "-" ++ Nat.repr (m + 1) := rfl
          have hk : Int.repr (Int.negSucc k) = "-" ++ Nat.repr (k + 1) := rfl
          rw [hm, hk] at hab
          have hdata := congrArg String.data hab
          rw [String.data_append, String.data_append] at hdata
          have : (Nat.repr (m + 1)).data = (Nat.repr (k + 1)).data := by
            simpa [String.data] using hdata
          have : Nat.repr (m + 1) = Nat.repr (k + 1) := by
            cases h1 : Nat.repr (m + 1); cases h2 : Nat.repr (k + 1)
            rw [h1, h2] at this; simp_all
          have hmk : m = k := by
            have := natRepr_injective this
            omega
          exact congrArg Int.negSucc hmk

theorem underscore_not_mem_intRepr (i : Int) : '_' ∉ (Int.repr i).data := by
  cases i with
  | ofNat m => exact underscore_not_mem_natRepr m
  | negSucc m =>
      intro h
      have hm : Int.repr (Int.negSucc m) = "-" ++ Nat.repr (m + 1) := rfl
      rw [hm, String.data_append] at h
      rcases List.mem_append.mp h with h | h
      · simp [String.data] at h
      · exact underscore_not_mem_natRepr (m + 1) h

/-! ## helper.ts : date strings and identifier generation -/

/-- Civil (proleptic Gregorian) date corresponding to a count of days
since 1970-01-01, as computed by JavaScript engines for
`Date.prototype.toISOString` (Howard Hinnant's `civil_from_days`
algorithm; all divisions have positive divisors, so Lean's Euclidean
`Int./` is exactly the required floor division). -/
def civilFromDays (z0 : Int) : Int × Int × Int :=
  let z := z0 + 719468
  let era := z / 146097
  let doe := z - era * 146097
  let yoe := (doe - doe / 1460 + doe / 36524 - doe / 146096) / 365
  let y := yoe + era * 400
  let doy := doe - (365 * yoe + yoe / 4 - yoe / 100)
  let mp := (5 * doy + 2) / 153
  let d := doy - (153 * mp + 2) / 5 + 1
  let m := mp + (if mp < 10 then 3 else -9)
  (if m ≤ 2 then y + 1 else y, m, d)

/-- Left-pad a decimal rendering with zeros to the given width (the
fixed-width fields of an ISO-8601 date). -/
def padZero (w : Nat) (s : String) : String :=
  String.mk (List.replicate (w - s.length) '0') ++ s

/-- helper.ts `getDateString`: the `YYYY-MM-DD` prefix of
`date.toISOString()` (UTC calendar; the year is assumed to be in
0..9999, which holds for every timestamp this system can encounter). -/
def getDateString (nowMs : Int) : String :=
  let c := civilFromDays (nowMs / 86400000)
  padZero 4 (Int.repr c.1) ++ "-" ++ padZero 2 (Int.repr c.2.1) ++ "-" ++
    padZero 2 (Int.repr c.2.2)

/-- The date part of `generateSessionId`: `toISOString()`'s date prefix
with the dashes removed (the source removes them with a global regex
replace of dashes; we build the dash-free string directly). -/
def compactDateString (nowMs : Int) : String :=
  let c := civilFromDays (nowMs / 86400000)
  padZero 4 (Int.repr c.1) ++ padZero 2 (Int.repr c.2.1) ++
    padZero 2 (Int.repr c.2.2)

/-- helper.ts `generateSessionId`: `` `${userId}_${dateStr}_${timestamp}` ``
where `timestamp = now.getTime()`. -/
def generateSessionId (userId : String) (nowMs : Int) : String :=
  userId ++ "_" ++ compactDateString nowMs ++ "_" ++ Int.repr nowMs

/-- helper.ts `generateBreakId`: `` `break_${Date.now()}` ``. -/
def generateBreakId (nowMs : Int) : String :=
  "break_" ++ Int.repr nowMs

/-- helper.ts `generateStatusUpdateId`: `` `status_${Date.now()}` ``. -/
def generateStatusUpdateId (nowMs : Int) : String :=
  "status_" ++ Int.repr nowMs

theorem underscore_not_mem_padZero {w : Nat} {s : String}
    (h : '_' ∉ s.data) : '_' ∉ (padZero w s).data := by
  intro hc
  rw [padZero, String.data_append] at hc
  rcases List.mem_append.mp hc with hc | hc
  · have := List.eq_of_mem_replicate hc
    simp at this
  · exact h hc

theorem underscore_not_mem_compactDateString (nowMs : Int) :
    '_' ∉ (compactDateString nowMs).data := by
  intro hc
  rw [compactDateString] at hc
  simp only [String.data_append, List.mem_append] at hc
  rcases hc with (hc | hc) | hc <;>
    exact underscore_not_mem_padZero (underscore_not_mem_intRepr _) hc

theorem string_append_left_cancel {s t₁ t₂ : String}
    (h : s ++ t₁ = s ++ t₂) : t₁ = t₂ := by
  apply String.ext
  have := congrArg String.data h
  rw [String.data_append, String.data_append] at this
  exact List.append_cancel_left this

theorem append_underscore_cancel :
    ∀ (xs : List Char) {ys zs ws : List Char}, '_' ∉ ys → '_' ∉ ws →
      xs ++ '_' :: ys = zs ++ '_' :: ws → xs = zs ∧ ys = ws := by
  intro xs
  induction xs with
  | nil =>
      intro ys zs ws hys hws h
      cases zs with
      | nil => simpa using h
      | cons c zs' =>
          exfalso
          simp only [List.nil_append, List.cons_append, List.cons.injEq] at h
          apply hys
          rw [h.2]
          simp [← h.1]
  | cons a xs' ih =>
      intro ys zs ws hys hws h
      cases zs with
      | nil =>
          exfalso
          simp only [List.nil_append, List.cons_append, List.cons.injEq] at h
          apply hws
          rw [← h.2]
          simp [h.1]
      | cons c zs' =>
          simp only [List.cons_append, List.cons.injEq] at h
          obtain ⟨h1, h2⟩ := ih hys hws h.2
          exact ⟨by simp [h.1, h1], h2⟩

theorem generateSessionId_inj {u₁ u₂ : String} {t₁ t₂ : Int}
    (h : generateSessionId u₁ t₁ = generateSessionId u₂ t₂) :
    u₁ = u₂ ∧ t₁ = t₂ := by
  have hdata := congrArg String.data h
  simp only [generateSessionId, String.data_append] at hdata
  have h1 : (u₁.data ++ '_' :: (compactDateString t₁).data) ++
        '_' :: (Int.repr t₁).data =
      (u₂.data ++ '_' :: (compactDateString t₂).data) ++
        '_' :: (Int.repr t₂).data := by
    have hu : ("_" : String).data = ['_'] := rfl
    simpa [hu, List.append_assoc] using hdata
  obtain ⟨hleft, hright⟩ := append_underscore_cancel _
    (underscore_not_mem_intRepr t₁) (underscore_not_mem_intRepr t₂) h1
  have ht : t₁ = t₂ := by
    apply intRepr_injective
    apply String.ext
    exact hright
  refine ⟨?_, ht⟩
  subst ht
  obtain ⟨hu, _⟩ := append_underscore_cancel _
    (underscore_not_mem_compactDateString t₁)
    (underscore_not_mem_compactDateString t₁) hleft
  exact String.ext hu

theorem generateBreakId_inj {t₁ t₂ : Int}
    (h : generateBreakId t₁ = generateBreakId t₂) : t₁ = t₂ :=
  intRepr_injective (string_append_left_cancel h)

theorem generateStatusUpdateId_inj {t₁ t₂ : Int}
    (h : generateStatusUpdateId t₁ = generateStatusUpdateId t₂) : t₁ = t₂ :=
  intRepr_injective (string_append_left_cancel h)

/-! ## constants.ts -/

/-- schema.ts `BreakType`. -/
inductive BreakType
  | short
  | lunch
  | personal
  | meeting
deriving DecidableEq, Repr

/-- One entry of the `BREAK_TYPES` table. -/
structure BreakTypeConfig where
  name : String
  duration : Option Int
  emoji : String
deriving DecidableEq, Repr

/-- constants.ts `BREAK_TYPES` (a `null` duration is `none`). -/
def BREAK_TYPES : BreakType → BreakTypeConfig
  | .short => { name := "Short Break", duration := some 15, emoji := "☕" }
  | .lunch => { name := "Lunch Break", duration := some 45, emoji := "🍽️" }
  | .personal => { name := "Personal Break", duration := some 20, emoji := "🚶" }
  | .meeting => { name := "Meeting Break", duration := none, emoji := "📅" }

/-! ## schema.ts : stored document types

Timestamps (`Date` / Firestore `Timestamp`) are `Int` milliseconds.
Optional (`?`) fields are `Option`. -/

/-- schema.ts `UserStatus.status` union. -/
inductive UserStatusKind
  | checkedIn
  | checkedOut
  | onBreak
  | offline
deriving DecidableEq, Repr

/-- schema.ts `'active' | 'completed'` (sessions and breaks). -/
inductive ActiveStatus
  | active
  | completed
deriving DecidableEq, Repr

/-- The nested `currentBreak` object of `UserStatus.currentSession`. -/
structure CurrentBreakInfo where
  id : String
  type : BreakType
  startTime : Int
deriving DecidableEq, Repr

/-- The nested `currentSession` projection of `UserStatus`. -/
structure CurrentSessionProj where
  checkinTime : Int
  totalBreakTime : Int
  currentBreak : Option CurrentBreakInfo
  currentWorkStatus : Option String
  statusUpdateCount : Int
deriving DecidableEq, Repr

/-- schema.ts `UserStatus` (the live per-user projection document). -/
structure UserStatus where
  userId : String
  username : String
  status : UserStatusKind
  currentSessionId : Option String
  lastCheckin : Option Int
  lastCheckout : Option Int
  lastActivity : Int
  timezone : Option String
  currentSession : Option CurrentSessionProj
deriving DecidableEq, Repr

/-- schema.ts `CheckinSession.notes`. -/
structure SessionNotes where
  checkin : Option String
  checkout : Option String
deriving DecidableEq, Repr

/-- schema.ts `CheckinSession`. -/
structure CheckinSession where
  sessionId : String
  userId : String
  username : String
  date : String
  checkinTime : Int
  checkoutTime : Option Int
  status : ActiveStatus
  totalBreakTime : Int
  totalWorkTime : Option Int
  notes : Option SessionNotes
  timezone : String
  createdAt : Int
  updatedAt : Int
  breakCount : Int
  statusUpdateCount : Int
  lastWorkStatus : Option String
deriving DecidableEq, Repr

/-- schema.ts `BreakRecord` (a document of the `breaks` subcollection of a
session; the subcollection path is the `sessionId` field, which every
write keeps equal to the path). -/
structure BreakRecord where
  breakId : String
  sessionId : String
  userId : String
  type : BreakType
  startTime : Int
  endTime : Option Int
  duration : Option Int
  expectedDuration : Option Int
  notes : Option String
  status : ActiveStatus
  createdAt : Int
deriving DecidableEq, Repr

/-- schema.ts `StatusUpdate` (a document of the `status_updates`
subcollection of a session). -/
structure StatusUpdate where
  updateId : String
  sessionId : String
  userId : String
  username : String
  status : String
  timestamp : Int
  previousStatus : Option String
deriving DecidableEq, Repr

/-- schema.ts `UserPreferences` (only the fields the core reads; the
optional per-break-type durations and notification toggles are never
consulted by the session engine). -/
structure UserPreferences where
  userId : String
  timezone : String
  createdAt : Int
  updatedAt : Int
deriving DecidableEq, Repr

/-- schema.ts `StatusReminder` (the `status_reminders` document; the
stored `createdAt`/`updatedAt` server timestamps are never read back and
are omitted). -/
structure StatusReminder where
  userId : String
  username : String
  sessionId : String
  reminderCount : Int
  isActive : Bool
  timezone : String
  lastReminderSent : Option Int
  lastStatusUpdate : Option Int
deriving DecidableEq, Repr

/-- schema.ts `UserCurrentState` (the composite returned by
`getUserCurrentState`). -/
structure UserCurrentState where
  status : UserStatus
  currentSession : Option CheckinSession
  activeBreak : Option BreakRecord
  recentStatusUpdates : Option (List StatusUpdate)
deriving DecidableEq, Repr

/-! ## The document store

Each collection is a list of documents; a document's key is the field
noted below.  `set` replaces the document with the same key.  The
`systemTimezone` field models the environment value
`Intl.DateTimeFormat().resolvedOptions().timeZone` read by
helper.ts `getSystemTimezone`; nothing ever writes it. -/

/-- The Firestore state: `user_status` (key `userId`), `checkin_sessions`
(key `sessionId`), subcollections `breaks` (key `(sessionId, breakId)`)
and `status_updates` (key `(sessionId, updateId)`), `user_preferences`
(key `userId`), `status_reminders` (key `userId`). -/
structure Firestore where
  userStatuses : List UserStatus
  sessions : List CheckinSession
  breaks : List BreakRecord
  statusUpdates : List StatusUpdate
  preferences : List UserPreferences
  reminders : List StatusReminder
  systemTimezone : String
deriving DecidableEq, Repr

/-- Generic insertion sort (used to model Firestore `orderBy`; the
comparison is "comes no later than"). -/
def insertSorted (le : α → α → Bool) (a : α) : List α → List α
  | [] => [a]
  | b :: l => if le a b then a :: b :: l else b :: insertSorted le a l

/-- Sort a list of documents by the given order. -/
def sortDocs (le : α → α → Bool) : List α → List α
  | [] => []
  | a :: l => insertSorted le a (sortDocs le l)

theorem mem_insertSorted {le : α → α → Bool} {a x : α} {l : List α} :
    x ∈ insertSorted le a l ↔ x = a ∨ x ∈ l := by
  induction l with
  | nil => simp [insertSorted]
  | cons b l ih =>
      by_cases h : le a b
      · rw [insertSorted, if_pos h]
        simp
      · rw [insertSorted, if_neg h]
        simp only [List.mem_cons, ih]
        tauto

theorem mem_sortDocs {le : α → α → Bool} {x : α} {l : List α} :
    x ∈ sortDocs le l ↔ x ∈ l := by
  induction l with
  | nil => simp [sortDocs]
  | cons b l ih => simp [sortDocs, mem_insertSorted, ih]


theorem pairwise_insertSorted {le : α → α → Bool}
    (htot : ∀ a b, le a b = true ∨ le b a = true)
    (htrans : ∀ a b c, le a b = true → le b c = true → le a c = true)
    {a : α} {l : List α}
    (h : l.Pairwise (fun x y => le x y = true)) :
    (insertSorted le a l).Pairwise (fun x y => le x y = true) := by
  induction l with
  | nil => simp [insertSorted]
  | cons b l ih =>
      obtain ⟨hb, hl⟩ := List.pairwise_cons.mp h
      by_cases hab : le a b
      · rw [insertSorted, if_pos hab]
        refine List.Pairwise.cons ?_ h
        intro y hy
        rcases List.mem_cons.mp hy with hy | hy
        · rw [hy]; exact hab
        · exact htrans a b y hab (hb y hy)
      · rw [insertSorted, if_neg hab]
        refine List.Pairwise.cons ?_ (ih hl)
        intro y hy
        rcases mem_insertSorted.mp hy with hy | hy
        · rw [hy]
          rcases htot a b with ht | ht
          · exact absurd ht hab
          · exact ht
        · exact hb y hy

theorem pairwise_sortDocs {le : α → α → Bool}
    (htot : ∀ a b, le a b = true ∨ le b a = true)
    (htrans : ∀ a b c, le a b = true → le b c = true → le a c = true)
    (l : List α) :
    (sortDocs le l).Pairwise (fun x y => le x y = true) := by
  induction l with
  | nil => simp [sortDocs]
  | cons b l ih => exact pairwise_insertSorted htot htrans ih

/-- If exactly one member of a list satisfies the predicate, any
reordering finds it. -/
theorem find?_eq_of_unique {p : α → Bool} {l : List α} {b : α}
    (hmem : b ∈ l) (hp : p b) (huniq : ∀ x ∈ l, p x → x = b) :
    l.find? p = some b := by
  induction l with
  | nil => simp at hmem
  | cons c l ih =>
      by_cases hc : p c
      · have : c = b := huniq c (List.mem_cons_self c l) hc
        subst this
        simp [List.find?, hc]
      · have hbl : b ∈ l := by
          rcases List.mem_cons.mp hmem with h | h
          · subst h; exact absurd hp (by simpa using hc)
          · exact h
        rw [List.find?_cons_of_neg _ (by simpa using hc)]
        exact ih hbl (fun x hx hpx => huniq x (List.mem_cons_of_mem c hx) hpx)

/-! ## database.ts : document access -/

/-- Look up the `user_status` document of a user. -/
def findUserStatus (userId : String) (fs : Firestore) : Option UserStatus :=
  fs.userStatuses.find? (fun d => d.userId == userId)

/-- Look up a `checkin_sessions` document. -/
def findSession (sessionId : String) (fs : Firestore) : Option CheckinSession :=
  fs.sessions.find? (fun d => d.sessionId == sessionId)

/-- Look up a document of the `breaks` subcollection of a session. -/
def findBreakDoc (sessionId breakId : String) (fs : Firestore) :
    Option BreakRecord :=
  fs.breaks.find? (fun d => d.sessionId == sessionId && d.breakId == breakId)

/-- Look up the `status_reminders` document of a user. -/
def findReminder (userId : String) (fs : Firestore) : Option StatusReminder :=
  fs.reminders.find? (fun d => d.userId == userId)

/-- Look up the `user_preferences` document of a user. -/
def findPreferences (userId : String) (fs : Firestore) :
    Option UserPreferences :=
  fs.preferences.find? (fun d => d.userId == userId)

/-- Firestore `set` on `user_status`: replace the document with the same
key. -/
def putUserStatusDoc (d : UserStatus) (fs : Firestore) : Firestore :=
  { fs with userStatuses :=
      d :: fs.userStatuses.filter (fun x => x.userId != d.userId) }

/-- Firestore `set`/`update` on `checkin_sessions`. -/
def putSessionDoc (d : CheckinSession) (fs : Firestore) : Firestore :=
  { fs with sessions :=
      d :: fs.sessions.filter (fun x => x.sessionId != d.sessionId) }

/-- Firestore `set`/`update` on a `breaks` subcollection. -/
def putBreakDoc (d : BreakRecord) (fs : Firestore) : Firestore :=
  { fs with breaks :=
      d :: fs.breaks.filter (fun x => !(x.sessionId == d.sessionId && x.breakId == d.breakId)) }

/-- Firestore `set` on a `status_updates` subcollection. -/
def putStatusUpdateDoc (d : StatusUpdate) (fs : Firestore) : Firestore :=
  { fs with statusUpdates :=
      d :: fs.statusUpdates.filter (fun x => !(x.sessionId == d.sessionId && x.updateId == d.updateId)) }

/-- Firestore `set`/`update` on `status_reminders`. -/
def putReminderDoc (d : StatusReminder) (fs : Firestore) : Firestore :=
  { fs with reminders :=
      d :: fs.reminders.filter (fun x => x.userId != d.userId) }

/-- Keep the old value of a field when the update payload drops it
(`undefined` under `ignoreUndefinedProperties`). -/
def orKeep (new old : Option α) : Option α :=
  match new with
  | some v => some v
  | none => old

/-! ## database.ts : preferences and user status -/

/-- database.ts `getUserTimezone`:
`preferences?.timezone || getSystemTimezone()` (a missing document and an
empty string both fall back, by JavaScript truthiness). -/
def getUserTimezone (userId : String) (fs : Firestore) : String :=
  match findPreferences userId fs with
  | some p => if p.timezone = "" then fs.systemTimezone else p.timezone
  | none => fs.systemTimezone

/-- database.ts `getUserStatus` (timestamp conversion is the identity in
this model). -/
def getUserStatus (userId : String) (fs : Firestore) : Option UserStatus :=
  findUserStatus userId fs

/-- The nested `currentSession` object of an update payload.  Every call
site builds it as an object literal whose `checkinTime`,
`totalBreakTime` and `statusUpdateCount` are present; `currentBreak` and
`currentWorkStatus` may be `undefined`, in which case
`ignoreUndefinedProperties` drops them and the `set(..., merge)` deep
merge keeps the previously stored value. -/
structure CurrentSessionPatch where
  checkinTime : Int
  totalBreakTime : Int
  statusUpdateCount : Int
  currentBreak : Option CurrentBreakInfo := none
  currentWorkStatus : Option String := none
deriving Repr

/-- The `Partial of UserStatus` payload accepted by `updateUserStatus`;
`none` is an absent (or `undefined`, hence dropped) field. -/
structure UserStatusPatch where
  userId : Option String := none
  username : Option String := none
  status : Option UserStatusKind := none
  currentSessionId : Option String := none
  lastCheckin : Option Int := none
  lastCheckout : Option Int := none
  timezone : Option String := none
  currentSession : Option CurrentSessionPatch := none
deriving Repr

/-- Deep merge of the `currentSession` map field under `set(..., merge)`. -/
def mergeCurrentSession (old : Option CurrentSessionProj)
    (p : CurrentSessionPatch) : CurrentSessionProj :=
  { checkinTime := p.checkinTime
    totalBreakTime := p.totalBreakTime
    statusUpdateCount := p.statusUpdateCount
    currentBreak := orKeep p.currentBreak (old.bind (fun o => o.currentBreak))
    currentWorkStatus :=
      orKeep p.currentWorkStatus (old.bind (fun o => o.currentWorkStatus)) }

/-- Result of `set(updateData, merge := true)` on the `user_status`
document.  When no document exists one is created holding only the
provided fields; the defaults below stand for the absent fields of such
a document (the only call that can create one, from
`createCheckinSession`, provides every field, and an absent `status`
behaves like `checked-out` for every read in the core). -/
def applyUserStatusPatch (old : Option UserStatus) (userId : String)
    (p : UserStatusPatch) (now : Int) : UserStatus :=
  let base : UserStatus :=
    match old with
    | some o => o
    | none =>
        { userId := userId, username := "", status := .checkedOut,
          currentSessionId := none, lastCheckin := none, lastCheckout := none,
          lastActivity := now, timezone := none, currentSession := none }
  { userId := p.userId.getD base.userId
    username := p.username.getD base.username
    status := p.status.getD base.status
    currentSessionId := orKeep p.currentSessionId base.currentSessionId
    lastCheckin := orKeep p.lastCheckin base.lastCheckin
    lastCheckout := orKeep p.lastCheckout base.lastCheckout
    lastActivity := now
    timezone := orKeep p.timezone base.timezone
    currentSession :=
      match p.currentSession with
      | none => base.currentSession
      | some cp => some (mergeCurrentSession base.currentSession cp) }

/-- database.ts `updateUserStatus` (a merge-set; `lastActivity` is the
server timestamp `now`). -/
def updateUserStatus (userId : String) (p : UserStatusPatch) (now : Int)
    (fs : Firestore) : Firestore :=
  putUserStatusDoc (applyUserStatusPatch (findUserStatus userId fs) userId p now) fs

/-! ## database.ts : sessions -/

/-- database.ts `createCheckinSession`. -/
def createCheckinSession (userId username : String) (notes : Option String)
    (now : Int) (fs : Firestore) : Firestore × CheckinSession :=
  let sessionId := generateSessionId userId now
  let timezone := getUserTimezone userId fs
  let session : CheckinSession :=
    { sessionId := sessionId, userId := userId, username := username,
      date := getDateString now,
      checkinTime := now, checkoutTime := none,
      status := .active, totalBreakTime := 0, totalWorkTime := none,
      notes := if strTruthy notes then
          some { checkin := notes, checkout := none } else none,
      timezone := timezone, createdAt := now, updatedAt := now,
      breakCount := 0, statusUpdateCount := 0, lastWorkStatus := none }
  let fs1 := putSessionDoc session fs
  let fs2 := updateUserStatus userId
    { userId := some userId, username := some username,
      status := some .checkedIn,
      currentSessionId := some sessionId,
      lastCheckin := some now,
      timezone := some timezone,
      currentSession := some
        { checkinTime := now, totalBreakTime := 0, statusUpdateCount := 0 } }
    now fs1
  (fs2, session)

/-- database.ts `getCheckinSession`. -/
def getCheckinSession (sessionId : String) (fs : Firestore) :
    Option CheckinSession :=
  findSession sessionId fs

/-- database.ts `completeCheckinSession`.  The source computes
`totalWorkTime = Math.round((checkoutTime - checkinTime) / 60000 -
totalBreakTime)`, which in exact arithmetic is
`jsRoundDiv ((now - checkinTime) - 60000 * totalBreakTime) 60000`. -/
def completeCheckinSession (sessionId : String) (checkoutNotes : Option String)
    (now : Int) (fs : Firestore) : Firestore × Except String Unit :=
  match findSession sessionId fs with
  | none => (fs, .error "Session not found")
  | some session =>
      let totalWorkTime :=
        jsRoundDiv (now - session.checkinTime - 60000 * session.totalBreakTime)
          60000
      let session' := { session with
        checkoutTime := some now,
        status := .completed,
        totalWorkTime := some totalWorkTime,
        updatedAt := now,
        notes := if strTruthy checkoutNotes then
            some { checkin := session.notes.bind (fun n => n.checkin),
                   checkout := checkoutNotes }
          else session.notes }
      let fs1 := putSessionDoc session' fs
      let fs2 := updateUserStatus session.userId
        { status := some .checkedOut, lastCheckout := some now } now fs1
      (fs2, .ok ())

/-! ## database.ts : breaks -/

/-- JavaScript truthiness of an optional number (`undefined`, `null` and
`0` are falsy). -/
def numTruthy : Option Int → Bool
  | none => false
  | some v => v ≠ 0

/-- Query order of `getSessionBreaks`: `orderBy('startTime', 'desc')`
(Firestore breaks ties by document id, ascending). -/
def breakQueryLe (a b : BreakRecord) : Bool :=
  decide (b.startTime < a.startTime) ||
    (decide (a.startTime = b.startTime) && decide (a.breakId ≤ b.breakId))

/-- Query order of `getSessionStatusUpdates`:
`orderBy('timestamp', 'desc')` (ties by document id, ascending). -/
def statusUpdateQueryLe (a b : StatusUpdate) : Bool :=
  decide (b.timestamp < a.timestamp) ||
    (decide (a.timestamp = b.timestamp) && decide (a.updateId ≤ b.updateId))

/-- The tail of `startBreak`: re-read the user status and, when it
carries a `currentSession` projection, mark the user `on-break` with the
new `currentBreak` (spreading the old projection). -/
def startBreakProjUpdate (userId breakId : String) (breakType : BreakType)
    (now : Int) (fs : Firestore) : Firestore :=
  match findUserStatus userId fs with
  | some st =>
      match st.currentSession with
      | some proj =>
          updateUserStatus userId
            { status := some .onBreak,
              currentSession := some
                { checkinTime := proj.checkinTime,
                  totalBreakTime := proj.totalBreakTime,
                  statusUpdateCount := proj.statusUpdateCount,
                  currentBreak := some
                    { id := breakId, type := breakType, startTime := now },
                  currentWorkStatus := proj.currentWorkStatus } }
            now fs
      | none => fs
  | none => fs

/-- The tail of `endBreak`: re-read the user status and, when it carries
a projection, revert to `checked-in`, fold the duration into the
projected `totalBreakTime` and drop `currentBreak` (an `undefined` that
`ignoreUndefinedProperties` discards, so the stored sub-field actually
survives). -/
def endBreakProjUpdate (userId : String) (duration now : Int)
    (fs : Firestore) : Firestore :=
  match findUserStatus userId fs with
  | some st =>
      match st.currentSession with
      | some proj =>
          updateUserStatus userId
            { status := some .checkedIn,
              currentSession := some
                { checkinTime := proj.checkinTime,
                  totalBreakTime := proj.totalBreakTime + duration,
                  statusUpdateCount := proj.statusUpdateCount,
                  currentBreak := none,
                  currentWorkStatus := proj.currentWorkStatus } }
            now fs
      | none => fs
  | none => fs

/-- The tail of `addStatusUpdate`: mirror the new status text and count
onto the user's projection. -/
def addStatusUpdateProjUpdate (userId status : String) (now : Int)
    (fs : Firestore) : Firestore :=
  match findUserStatus userId fs with
  | some st =>
      match st.currentSession with
      | some proj =>
          updateUserStatus userId
            { currentSession := some
                { checkinTime := proj.checkinTime,
                  totalBreakTime := proj.totalBreakTime,
                  statusUpdateCount := proj.statusUpdateCount + 1,
                  currentBreak := proj.currentBreak,
                  currentWorkStatus := some status } }
            now fs
      | none => fs
  | none => fs

/-- database.ts `startBreak`.  The break document is written first; the
following `update` of the parent session throws if that document does
not exist (the break document still having been written). -/
def startBreak (sessionId userId : String) (breakType : BreakType)
    (notes : Option String) (now : Int) (fs : Firestore) :
    Firestore × Except String BreakRecord :=
  let breakId := generateBreakId now
  let breakRecord : BreakRecord :=
    { breakId := breakId, sessionId := sessionId, userId := userId,
      type := breakType, startTime := now, endTime := none, duration := none,
      status := .active, createdAt := now,
      expectedDuration := (BREAK_TYPES breakType).duration,
      notes := if strTruthy notes then notes else none }
  let fs1 := putBreakDoc breakRecord fs
  match findSession sessionId fs1 with
  | none => (fs1, .error "update on missing session document")
  | some session =>
      let fs2 := putSessionDoc
        { session with breakCount := session.breakCount + 1, updatedAt := now } fs1
      (startBreakProjUpdate userId breakId breakType now fs2, .ok breakRecord)

/-- The `updates.notes` value of `endBreak`: append the end-notes to any
existing notes with the literal `" | End: "` separator (an empty or
absent end-note is falsy and leaves `updates.notes` undefined). -/
def endBreakNewNotes (oldNotes notes : Option String) : Option String :=
  match notes with
  | some s =>
      if s = "" then none
      else some (match oldNotes with
        | some old => old ++ " | End: " ++ s
        | none => "End: " ++ s)
  | none => none

/-- database.ts `endBreak`.  Fails (before any write) when the break
document does not exist.  `duration = Math.round((endTime - startTime) /
60000)`.  The returned record's `notes` field is `updates.notes`, which
is `undefined` when no end-notes were supplied, even if the stored
document kept its old notes. -/
def endBreak (sessionId breakId userId : String) (notes : Option String)
    (now : Int) (fs : Firestore) : Firestore × Except String BreakRecord :=
  match findBreakDoc sessionId breakId fs with
  | none => (fs, .error "Break record not found")
  | some breakData =>
      let duration := jsRoundDiv (now - breakData.startTime) 60000
      let newNotes : Option String := endBreakNewNotes breakData.notes notes
      let breakDoc' := { breakData with
        endTime := some now, duration := some duration, status := .completed,
        notes := orKeep newNotes breakData.notes }
      let fs1 := putBreakDoc breakDoc' fs
      match findSession sessionId fs1 with
      | none => (fs1, .error "update on missing session document")
      | some session =>
          let fs2 := putSessionDoc
            { session with totalBreakTime := session.totalBreakTime + duration, updatedAt := now } fs1
          let returned : BreakRecord := { breakData with
            endTime := some now, duration := some duration,
            status := .completed, notes := newNotes }
          (endBreakProjUpdate userId duration now fs2, .ok returned)

/-- database.ts `getSessionBreaks` (all breaks of a session, newest
first). -/
def getSessionBreaks (sessionId : String) (fs : Firestore) :
    List BreakRecord :=
  sortDocs breakQueryLe (fs.breaks.filter (fun b => b.sessionId == sessionId))

/-! ## database.ts : status updates -/

/-- database.ts `getSessionStatusUpdates` (newest first; a `limit` of `0`
is falsy in JavaScript, so it is ignored). -/
def getSessionStatusUpdates (sessionId : String) (limit : Option Nat)
    (fs : Firestore) : List StatusUpdate :=
  let sorted := sortDocs statusUpdateQueryLe
    (fs.statusUpdates.filter (fun u => u.sessionId == sessionId))
  match limit with
  | some n => if n = 0 then sorted else sorted.take n
  | none => sorted

/-- database.ts `getLatestStatusUpdate`. -/
def getLatestStatusUpdate (sessionId : String) (fs : Firestore) :
    Option StatusUpdate :=
  (getSessionStatusUpdates sessionId (some 1) fs).head?

/-- database.ts `addStatusUpdate`. -/
def addStatusUpdate (sessionId userId username status : String) (now : Int)
    (fs : Firestore) : Firestore × Except String StatusUpdate :=
  let updateId := generateStatusUpdateId now
  let previousUpdate := getLatestStatusUpdate sessionId fs
  let statusUpdate : StatusUpdate :=
    { updateId := updateId, sessionId := sessionId, userId := userId,
      username := username, status := status, timestamp := now,
      previousStatus := previousUpdate.map (fun u => u.status) }
  let fs1 := putStatusUpdateDoc statusUpdate fs
  match findSession sessionId fs1 with
  | none => (fs1, .error "update on missing session document")
  | some session =>
      let fs2 := putSessionDoc
        { session with lastWorkStatus := some status, statusUpdateCount := session.statusUpdateCount + 1, updatedAt := now } fs1
      (addStatusUpdateProjUpdate userId status now fs2, .ok statusUpdate)

/-! ## database.ts : composite reads -/

/-- database.ts `getUserCurrentState`. -/
def getUserCurrentState (userId : String) (fs : Firestore) :
    Option UserCurrentState :=
  match findUserStatus userId fs with
  | none => none
  | some status =>
      match status.currentSessionId with
      | none =>
          some { status := status, currentSession := none,
                 activeBreak := none, recentStatusUpdates := none }
      | some sid =>
          match findSession sid fs with
          | none =>
              some { status := status, currentSession := none,
                     activeBreak := none, recentStatusUpdates := none }
          | some session =>
              let statusUpdates := getSessionStatusUpdates sid (some 5) fs
              let activeBreak : Option BreakRecord :=
                match status.currentSession with
                | some proj =>
                    match proj.currentBreak with
                    | some cb =>
                        (getSessionBreaks sid fs).find? (fun b => b.breakId == cb.id)
                    | none => none
                | none => none
              some { status := status, currentSession := some session,
                     activeBreak := activeBreak,
                     recentStatusUpdates := some statusUpdates }

/-! ## database.ts : status reminders -/

/-- The `Partial of StatusReminder` payload of `updateStatusReminder`. -/
structure StatusReminderPatch where
  reminderCount : Option Int := none
  isActive : Option Bool := none
  lastReminderSent : Option Int := none
  lastStatusUpdate : Option Int := none
deriving Repr

/-- database.ts `createStatusReminder` (a full `set`, so any previous
reminder fields of the user are discarded). -/
def createStatusReminder (userId username sessionId : String)
    (fs : Firestore) : Firestore :=
  let timezone := getUserTimezone userId fs
  putReminderDoc
    { userId := userId, username := username, sessionId := sessionId,
      reminderCount := 0, isActive := true, timezone := timezone,
      lastReminderSent := none, lastStatusUpdate := none } fs

/-- database.ts `updateStatusReminder`: an `update()` whose failure on a
missing document is caught and swallowed, so it is a no-op then. -/
def updateStatusReminder (userId : String) (p : StatusReminderPatch)
    (fs : Firestore) : Firestore :=
  match findReminder userId fs with
  | none => fs
  | some r =>
      let r' := { r with
        reminderCount := p.reminderCount.getD r.reminderCount,
        isActive := p.isActive.getD r.isActive,
        lastReminderSent := orKeep p.lastReminderSent r.lastReminderSent,
        lastStatusUpdate := orKeep p.lastStatusUpdate r.lastStatusUpdate }
      putReminderDoc r' fs

/-- database.ts `getStatusReminder`. -/
def getStatusReminder (userId : String) (fs : Firestore) :
    Option StatusReminder :=
  findReminder userId fs

/-- database.ts `deactivateStatusReminder`. -/
def deactivateStatusReminder (userId : String) (fs : Firestore) : Firestore :=
  updateStatusReminder userId { isActive := some false } fs

/-- database.ts `getActiveStatusReminders`. -/
def getActiveStatusReminders (fs : Firestore) : List StatusReminder :=
  fs.reminders.filter (fun r => r.isActive)

/-- database.ts `REMINDER_INTERVAL_MS` (45 minutes). -/
def REMINDER_INTERVAL_MS : Int := 45 * 60 * 1000

/-- database.ts `CHECK_INTERVAL_MS` (the 5-minute poll interval of
`startStatusReminderService`). -/
def CHECK_INTERVAL_MS : Int := 5 * 60 * 1000

/-- database.ts `sendStatusReminder`.  The Slack `chat.postMessage` call
is external; `sendOk` injects its `result.ok`.  Returns whether a
message was delivered.  (The `new Date()` stamped into
`lastReminderSent` is modelled by the same injected instant `now`.) -/
def sendStatusReminder (userId : String) (sendOk : Bool) (now : Int)
    (fs : Firestore) : Firestore × Bool :=
  match getUserCurrentState userId fs with
  | none => (fs, false)
  | some userState =>
      if userState.status.status ≠ .checkedIn then (fs, false)
      else if sendOk then
        let fs' :=
          match getStatusReminder userId fs with
          | some reminder =>
              updateStatusReminder userId
                { lastReminderSent := some now,
                  reminderCount := some (reminder.reminderCount + 1) } fs
          | none => fs
        (fs', true)
      else (fs, false)

/-- The body of the `checkAndSendStatusReminders` loop for one reminder
record: resolve the user's live state and skip unless `checked-in`;
derive the last-activity reference (`lastStatusUpdate`, else the newest
fetched status update's timestamp, else the session's check-in time);
send when 45 idle minutes have passed and no reminder went out in the
last 45 minutes. -/
def processReminder (sendOk : Bool) (now : Int)
    (acc : Firestore × List String) (reminder : StatusReminder) :
    Firestore × List String :=
  let fsCur := acc.1
  let sent := acc.2
  match getUserCurrentState reminder.userId fsCur with
  | none => (fsCur, sent)
  | some userState =>
      if userState.status.status ≠ .checkedIn then (fsCur, sent)
      else
        let lastActivityTime? : Option Int :=
          match reminder.lastStatusUpdate with
          | some t => some t
          | none =>
              match userState.recentStatusUpdates with
              | some (u :: _) => some u.timestamp
              | _ =>
                  match userState.currentSession with
                  | some s => some s.checkinTime
                  | none => none
        match lastActivityTime? with
        | none => (fsCur, sent)
        | some lastActivityTime =>
            if REMINDER_INTERVAL_MS ≤ now - lastActivityTime then
              let throttled :=
                match reminder.lastReminderSent with
                | some r => decide (now - r < REMINDER_INTERVAL_MS)
                | none => false
              if throttled then (fsCur, sent)
              else
                let res := sendStatusReminder reminder.userId sendOk now fsCur
                (res.1, if res.2 then sent ++ [reminder.userId] else sent)
            else (fsCur, sent)

/-- database.ts `checkAndSendStatusReminders`: one poll tick.  The list
of active reminders is read once; the loop body threads the store.
Returns the store and the users a reminder was delivered to (in loop
order). -/
def checkAndSendStatusReminders (sendOk : Bool) (now : Int)
    (fs : Firestore) : Firestore × List String :=
  let activeReminders := getActiveStatusReminders fs
  activeReminders.foldl (processReminder sendOk now) (fs, [])

/-- database.ts `createCheckinSessionWithReminder`. -/
def createCheckinSessionWithReminder (userId username : String)
    (notes : Option String) (now : Int) (fs : Firestore) :
    Firestore × CheckinSession :=
  let r := createCheckinSession userId username notes now fs
  (createStatusReminder userId username r.2.sessionId r.1, r.2)

/-- database.ts `completeCheckinSessionWithReminder`. -/
def completeCheckinSessionWithReminder (sessionId : String)
    (checkoutNotes : Option String) (now : Int) (fs : Firestore) :
    Firestore × Except String Unit :=
  match findSession sessionId fs with
  | none => (fs, .error "Session not found")
  | some session =>
      let r := completeCheckinSession sessionId checkoutNotes now fs
      match r.2 with
      | .error e => (r.1, .error e)
      | .ok _ => (deactivateStatusReminder session.userId r.1, .ok ())

/-- database.ts `addStatusUpdateWithReminderUpdate` (the `new Date()`
stamped into `lastStatusUpdate` is modelled by the same injected
instant `now`). -/
def addStatusUpdateWithReminderUpdate (sessionId userId username status : String)
    (now : Int) (fs : Firestore) : Firestore × Except String StatusUpdate :=
  let r := addStatusUpdate sessionId userId username status now fs
  match r.2 with
  | .error e => (r.1, .error e)
  | .ok su =>
      let fs2 :=
        match getStatusReminder userId r.1 with
        | some rem =>
            if rem.isActive then
              updateStatusReminder userId { lastStatusUpdate := some now } r.1
            else r.1
        | none => r.1
      (fs2, .ok su)

/-! ## calendar.ts : command handlers

Each handler receives the already-trimmed command text and the clock
instant, and returns the new store plus an outcome describing which
`respond` branch was taken.  Message formatting is external; the
outcome keeps only the data the formatted text depends on. -/

/-- Outcome of `handleCheckin`. -/
inductive CheckinOutcome
  | alreadyActive
  | success (session : CheckinSession)
deriving DecidableEq, Repr

/-- calendar.ts `handleCheckin`.  Rejects when the user's status is
`checked-in` or `on-break`, without touching the store. -/
def handleCheckin (userId username text : String) (now : Int)
    (fs : Firestore) : Firestore × CheckinOutcome :=
  let userStatus := getUserStatus userId fs
  match userStatus with
  | some st =>
      if st.status = .checkedIn ∨ st.status = .onBreak then
        (fs, .alreadyActive)
      else
        let r := createCheckinSession userId username (some text) now fs
        (r.1, .success r.2)
  | none =>
      let r := createCheckinSession userId username (some text) now fs
      (r.1, .success r.2)

/-- Outcome of `handleCheckout`. -/
inductive CheckoutOutcome
  | notCheckedIn
  | success
  | failure (msg : String)
deriving DecidableEq, Repr

/-- calendar.ts `handleCheckout`.  When the user is on a break with a
resolvable active break, that break is force-ended (notes
`"Auto-ended due to checkout"`) before the session is completed. -/
def handleCheckout (userId text : String) (now : Int) (fs : Firestore) :
    Firestore × CheckoutOutcome :=
  match getUserCurrentState userId fs with
  | none => (fs, .notCheckedIn)
  | some userState =>
      if userState.status.status = .checkedOut then (fs, .notCheckedIn)
      else
        match userState.currentSession with
        | none => (fs, .notCheckedIn)
        | some currentSession =>
            let afterBreak : Firestore × Option String :=
              if userState.status.status = .onBreak then
                match userState.activeBreak with
                | some ab =>
                    let r := endBreak currentSession.sessionId ab.breakId userId
                      (some "Auto-ended due to checkout") now fs
                    (r.1, match r.2 with | .ok _ => none | .error e => some e)
                | none => (fs, none)
              else (fs, none)
            match afterBreak.2 with
            | some e => (afterBreak.1, .failure e)
            | none =>
                let r := completeCheckinSession currentSession.sessionId
                  (some text) now afterBreak.1
                match r.2 with
                | .error e => (r.1, .failure e)
                | .ok _ =>
                    match getCheckinSession currentSession.sessionId r.1 with
                    | none => (r.1, .failure "Failed to complete session")
                    | some completed =>
                        if completed.checkoutTime.isNone then
                          (r.1, .failure "Failed to complete session")
                        else (r.1, .success)

/-- Outcome of `handleBreakStart`. -/
inductive BreakStartOutcome
  | notCheckedIn
  | alreadyOnBreak
  | invalidType
  | success (breakRecord : BreakRecord)
  | failure (msg : String)
deriving DecidableEq, Repr

/-- calendar.ts `handleBreakStart`.  The break type is the first word of
the command text, already parsed: `none` stands for a missing or
unknown type (for which `BREAK_TYPES[breakType]` is falsy). -/
def handleBreakStart (userId : String) (breakType : Option BreakType)
    (notes : String) (now : Int) (fs : Firestore) :
    Firestore × BreakStartOutcome :=
  match getUserCurrentState userId fs with
  | none => (fs, .notCheckedIn)
  | some userState =>
      if userState.status.status = .checkedOut then (fs, .notCheckedIn)
      else
        match userState.currentSession with
        | none => (fs, .notCheckedIn)
        | some currentSession =>
            if userState.status.status = .onBreak ∧ userState.activeBreak.isSome then
              (fs, .alreadyOnBreak)
            else
              match breakType with
              | none => (fs, .invalidType)
              | some bt =>
                  let r := startBreak currentSession.sessionId userId bt
                    (some notes) now fs
                  match r.2 with
                  | .ok br => (r.1, .success br)
                  | .error e => (r.1, .failure e)

/-- The human-facing duration summary built by `handleBreakEnd` (lines
489-497 of calendar.ts): the variance flag is added only when both
`breakConfig.duration` and `endedBreak.duration` are truthy (a `null`
expected duration and a `0`-minute actual duration are falsy) and the
difference exceeds 5 minutes in absolute value. -/
def breakEndDurationText (endedBreak : BreakRecord) : String :=
  let breakConfig := BREAK_TYPES endedBreak.type
  let base := (match endedBreak.duration with
    | some d => Int.repr d
    | none => "undefined") ++ " minutes"
  if numTruthy breakConfig.duration ∧ numTruthy endedBreak.duration then
    let expected := breakConfig.duration.getD 0
    let difference := endedBreak.duration.getD 0 - expected
    if difference > 5 then
      base ++ " (" ++ Int.repr difference ++ " min longer than expected)"
    else if difference < -5 then
      base ++ " (" ++ Int.repr (-difference) ++ " min shorter than expected)"
    else base
  else base

/-- Outcome of `handleBreakEnd`. -/
inductive BreakEndOutcome
  | notOnBreak
  | success (endedBreak : BreakRecord) (durationText : String)
  | failure (msg : String)
deriving DecidableEq, Repr

/-- calendar.ts `handleBreakEnd`. -/
def handleBreakEnd (userId text : String) (now : Int) (fs : Firestore) :
    Firestore × BreakEndOutcome :=
  match getUserCurrentState userId fs with
  | none => (fs, .notOnBreak)
  | some userState =>
      if userState.status.status ≠ .onBreak then (fs, .notOnBreak)
      else
        match userState.activeBreak, userState.currentSession with
        | some ab, some currentSession =>
            let r := endBreak currentSession.sessionId ab.breakId userId
              (some text) now fs
            match r.2 with
            | .ok endedBreak =>
                (r.1, .success endedBreak (breakEndDurationText endedBreak))
            | .error e => (r.1, .failure e)
        | _, _ => (fs, .notOnBreak)

/-- Outcome of `handleStatusUpdate`. -/
inductive StatusUpdateOutcome
  | notCheckedIn
  | showStatus
  | success (statusUpdate : StatusUpdate)
  | failure (msg : String)
deriving DecidableEq, Repr

/-- calendar.ts `handleStatusUpdate` (an empty text only displays the
current status and writes nothing). -/
def handleStatusUpdate (userId username text : String) (now : Int)
    (fs : Firestore) : Firestore × StatusUpdateOutcome :=
  match getUserCurrentState userId fs with
  | none => (fs, .notCheckedIn)
  | some userState =>
      if userState.status.status = .checkedOut then (fs, .notCheckedIn)
      else
        match userState.currentSession with
        | none => (fs, .notCheckedIn)
        | some currentSession =>
            if text = "" then (fs, .showStatus)
            else
              let r := addStatusUpdate currentSession.sessionId userId username
                text now fs
              match r.2 with
              | .ok su => (r.1, .success su)
              | .error e => (r.1, .failure e)

/-! ## Sequential traces of commands

A trace interleaves the five user commands (one atomic handler run each,
as dispatched by index.ts) and ticks of the reminder poll loop.  Each
entry carries the wall-clock instant at which it runs. -/

/-- One atomic operation of the system. -/
inductive Op
  | checkin (userId username text : String) (now : Int)
  | checkout (userId text : String) (now : Int)
  | breakStart (userId : String) (breakType : Option BreakType)
      (notes : String) (now : Int)
  | breakEnd (userId text : String) (now : Int)
  | statusUpdate (userId username text : String) (now : Int)
  | reminderTick (sendOk : Bool) (now : Int)
deriving Repr

/-- The store after one operation. -/
def applyOp (fs : Firestore) : Op → Firestore
  | .checkin u un t now => (handleCheckin u un t now fs).1
  | .checkout u t now => (handleCheckout u t now fs).1
  | .breakStart u bt n now => (handleBreakStart u bt n now fs).1
  | .breakEnd u t now => (handleBreakEnd u t now fs).1
  | .statusUpdate u un t now => (handleStatusUpdate u un t now fs).1
  | .reminderTick ok now => (checkAndSendStatusReminders ok now fs).1

/-- The store after a list of operations. -/
def runOps (fs : Firestore) (ops : List Op) : Firestore :=
  ops.foldl applyOp fs

/-- A store with no documents (a fresh deployment); the system timezone
is irrelevant to every claim. -/
def emptyFirestore (tz : String) : Firestore :=
  { userStatuses := [], sessions := [], breaks := [], statusUpdates := [],
    preferences := [], reminders := [], systemTimezone := tz }

/-! ## Store lemmas -/

theorem find?_filter_of_imp {p q : α → Bool} {l : List α}
    (h : ∀ x, p x = true → q x = true) : (l.filter q).find? p = l.find? p := by
  induction l with
  | nil => rfl
  | cons a l ih =>
      by_cases hq : q a
      · rw [List.filter_cons_of_pos hq]
        by_cases hp : p a
        · rw [List.find?_cons_of_pos _ hp, List.find?_cons_of_pos _ hp]
        · rw [List.find?_cons_of_neg _ hp, List.find?_cons_of_neg _ hp, ih]
      · have hp : ¬ p a = true := fun hpa => hq (h a hpa)
        rw [List.filter_cons_of_neg hq, List.find?_cons_of_neg _ hp, ih]
theorem findSession_putSessionDoc (d : CheckinSession) (sid : String)
    (fs : Firestore) :
    findSession sid (putSessionDoc d fs) =
      if d.sessionId = sid then some d else findSession sid fs := by
  unfold findSession putSessionDoc
  by_cases h : d.sessionId = sid
  · rw [if_pos h]
    simp [List.find?_cons_of_pos, h]
  · rw [if_neg h]
    simp only []
    rw [List.find?_cons_of_neg _ (by simpa using h)]
    refine find?_filter_of_imp (fun x hx => ?_)
    simp only [beq_iff_eq] at hx
    simp only [bne_iff_ne, ne_eq, decide_eq_true_eq]
    intro hc
    exact h (hc.symm.trans hx)

theorem findUserStatus_putUserStatusDoc (d : UserStatus) (uid : String)
    (fs : Firestore) :
    findUserStatus uid (putUserStatusDoc d fs) =
      if d.userId = uid then some d else findUserStatus uid fs := by
  unfold findUserStatus putUserStatusDoc
  by_cases h : d.userId = uid
  · rw [if_pos h]
    simp [List.find?_cons_of_pos, h]
  · rw [if_neg h]
    simp only []
    rw [List.find?_cons_of_neg _ (by simpa using h)]
    refine find?_filter_of_imp (fun x hx => ?_)
    simp only [beq_iff_eq] at hx
    simp only [bne_iff_ne, ne_eq, decide_eq_true_eq]
    intro hc
    exact h (hc.symm.trans hx)

theorem findReminder_putReminderDoc (d : StatusReminder) (uid : String)
    (fs : Firestore) :
    findReminder uid (putReminderDoc d fs) =
      if d.userId = uid then some d else findReminder uid fs := by
  unfold findReminder putReminderDoc
  by_cases h : d.userId = uid
  · rw [if_pos h]
    simp [List.find?_cons_of_pos, h]
  · rw [if_neg h]
    simp only []
    rw [List.find?_cons_of_neg _ (by simpa using h)]
    refine find?_filter_of_imp (fun x hx => ?_)
    simp only [beq_iff_eq] at hx
    simp only [bne_iff_ne, ne_eq, decide_eq_true_eq]
    intro hc
    exact h (hc.symm.trans hx)

theorem findBreakDoc_putBreakDoc (d : BreakRecord) (sid bid : String)
    (fs : Firestore) :
    findBreakDoc sid bid (putBreakDoc d fs) =
      if d.sessionId = sid ∧ d.breakId = bid then some d
      else findBreakDoc sid bid fs := by
  unfold findBreakDoc putBreakDoc
  by_cases h : d.sessionId = sid ∧ d.breakId = bid
  · rw [if_pos h]
    simp [List.find?_cons_of_pos, h.1, h.2]
  · rw [if_neg h]
    simp only []
    rw [List.find?_cons_of_neg _ (by
      simp only [Bool.and_eq_true, beq_iff_eq]
      intro hc
      exact h hc)]
    refine find?_filter_of_imp (fun x hx => ?_)
    simp only [Bool.and_eq_true, beq_iff_eq] at hx
    have hne : ¬(x.sessionId = d.sessionId ∧ x.breakId = d.breakId) := by
      intro hc
      exact h ⟨hc.1.symm.trans hx.1, hc.2.symm.trans hx.2⟩
    simp only [Bool.not_eq_true', Bool.and_eq_false_iff, beq_eq_false_iff_ne,
      ne_eq]
    tauto

/-- Membership after a keyed overwrite of a session document. -/
theorem mem_putSessionDoc {d x : CheckinSession} {fs : Firestore} :
    x ∈ (putSessionDoc d fs).sessions ↔
      x = d ∨ (x ∈ fs.sessions ∧ ¬ x.sessionId = d.sessionId) := by
  unfold putSessionDoc
  simp only [List.mem_cons, List.mem_filter, bne_iff_ne, ne_eq,
    decide_eq_true_eq]

theorem sessions_putUserStatusDoc (d : UserStatus) (fs : Firestore) :
    (putUserStatusDoc d fs).sessions = fs.sessions := rfl

theorem sessions_updateUserStatus (u : String) (p : UserStatusPatch)
    (now : Int) (fs : Firestore) :
    (updateUserStatus u p now fs).sessions = fs.sessions := rfl

theorem findSession_updateUserStatus (sid u : String) (p : UserStatusPatch)
    (now : Int) (fs : Firestore) :
    findSession sid (updateUserStatus u p now fs) = findSession sid fs := rfl

theorem findBreakDoc_updateUserStatus (sid bid u : String)
    (p : UserStatusPatch) (now : Int) (fs : Firestore) :
    findBreakDoc sid bid (updateUserStatus u p now fs) =
      findBreakDoc sid bid fs := rfl

theorem findBreakDoc_putSessionDoc (sid bid : String) (d : CheckinSession)
    (fs : Firestore) :
    findBreakDoc sid bid (putSessionDoc d fs) = findBreakDoc sid bid fs := rfl

theorem findSession_putBreakDoc (sid : String) (d : BreakRecord)
    (fs : Firestore) :
    findSession sid (putBreakDoc d fs) = findSession sid fs := rfl

theorem findSession_putStatusUpdateDoc (sid : String) (d : StatusUpdate)
    (fs : Firestore) :
    findSession sid (putStatusUpdateDoc d fs) = findSession sid fs := rfl

/-- The session found under a key has that key as its `sessionId`. -/
theorem sessionId_of_findSession {sid : String} {fs : Firestore}
    {s : CheckinSession} (h : findSession sid fs = some s) :
    s.sessionId = sid := by
  have := List.find?_some h
  simpa using this

theorem userId_of_findUserStatus {uid : String} {fs : Firestore}
    {s : UserStatus} (h : findUserStatus uid fs = some s) : s.userId = uid := by
  have := List.find?_some h
  simpa using this

theorem userId_of_findReminder {uid : String} {fs : Firestore}
    {r : StatusReminder} (h : findReminder uid fs = some r) :
    r.userId = uid := by
  have := List.find?_some h
  simpa using this

theorem keys_of_findBreakDoc {sid bid : String} {fs : Firestore}
    {b : BreakRecord} (h : findBreakDoc sid bid fs = some b) :
    b.sessionId = sid ∧ b.breakId = bid := by
  have := List.find?_some h
  simpa using this

/-- Splitting the integer subtraction out of the rounding:
`Math.round(x - k) = Math.round(x) - k` for an integer `k`. -/
theorem jsRoundDiv_sub_mul (a n : Int) :
    jsRoundDiv (a - 60000 * n) 60000 = jsRoundDiv a 60000 - n := by
  unfold jsRoundDiv
  omega

/-! ## Claim C1 -/

/-- C1: For every checkout of a session (whose stored `totalBreakTime` is
an integer number of minutes, as every write keeps it), the completed
session's `totalWorkTime` equals
`round((checkoutTime - checkinTime)/60000) - totalBreakTime`, unclamped:
when the recorded break time exceeds the rounded elapsed wall time the
stored value is negative, not corrected to zero. -/
theorem C1_checkout_totalWorkTime (sessionId : String) (notes : Option String)
    (now : Int) (fs : Firestore) (session : CheckinSession)
    (hfind : findSession sessionId fs = some session) :
    ∃ s', findSession sessionId (completeCheckinSession sessionId notes now fs).1 = some s' ∧
      s'.status = .completed ∧
      s'.checkoutTime = some now ∧
      s'.totalWorkTime = some (jsRoundDiv (now - session.checkinTime) 60000 -
        session.totalBreakTime) ∧
      (jsRoundDiv (now - session.checkinTime) 60000 < session.totalBreakTime →
        jsRoundDiv (now - session.checkinTime) 60000 -
          session.totalBreakTime < 0) := by
  have hsid := sessionId_of_findSession hfind
  unfold completeCheckinSession
  rw [hfind]
  simp only [sessions_updateUserStatus, findSession_updateUserStatus]
  rw [findSession_putSessionDoc]
  simp only [hsid, if_pos]
  refine ⟨_, rfl, rfl, rfl, ?_, by omega⟩
  show some (jsRoundDiv (now - session.checkinTime -
    60000 * session.totalBreakTime) 60000) = _
  rw [show now - session.checkinTime - 60000 * session.totalBreakTime =
    (now - session.checkinTime) - 60000 * session.totalBreakTime from rfl]
  rw [jsRoundDiv_sub_mul]

/-- Data for the C1 witness: a 1-minute session with 5 recorded break
minutes. -/
def c1Session : CheckinSession :=
  { sessionId := "u1_19700101_0", userId := "u1", username := "alice",
    date := "1970-01-01", checkinTime := 0, checkoutTime := none,
    status := .active, totalBreakTime := 5, totalWorkTime := none,
    notes := none, timezone := "UTC", createdAt := 0, updatedAt := 0,
    breakCount := 1, statusUpdateCount := 0, lastWorkStatus := none }

/-- Store holding only the C1 witness session. -/
def c1Store : Firestore :=
  { emptyFirestore "UTC" with sessions := [c1Session] }

/-- Witness for C1: checking out one minute after check-in with 5 break
minutes stores `totalWorkTime = 1 - 5 = -4`, a negative value. -/
theorem C1_checkout_totalWorkTime_witness :
    ∃ s', findSession "u1_19700101_0"
        (completeCheckinSession "u1_19700101_0" none 60000 c1Store).1 = some s' ∧
      s'.status = .completed ∧
      s'.checkoutTime = some 60000 ∧
      s'.totalWorkTime = some (-4) ∧
      (-4 : Int) < 0 := by
  obtain ⟨s', h1, h2, h3, h4, _⟩ := C1_checkout_totalWorkTime "u1_19700101_0"
    none 60000 c1Store c1Session (by rfl)
  refine ⟨s', h1, h2, by simpa using h3, ?_, by norm_num⟩
  rw [h4]
  norm_num [jsRoundDiv, c1Session]

theorem findSession_startBreakProjUpdate (sid u bid : String)
    (bt : BreakType) (now : Int) (fs : Firestore) :
    findSession sid (startBreakProjUpdate u bid bt now fs) =
      findSession sid fs := by
  unfold startBreakProjUpdate
  split
  · split
    · rfl
    · rfl
  · rfl

theorem findSession_endBreakProjUpdate (sid u : String) (d now : Int)
    (fs : Firestore) :
    findSession sid (endBreakProjUpdate u d now fs) = findSession sid fs := by
  unfold endBreakProjUpdate
  split
  · split
    · rfl
    · rfl
  · rfl

theorem findSession_addStatusUpdateProjUpdate (sid u txt : String) (now : Int)
    (fs : Firestore) :
    findSession sid (addStatusUpdateProjUpdate u txt now fs) =
      findSession sid fs := by
  unfold addStatusUpdateProjUpdate
  split
  · split
    · rfl
    · rfl
  · rfl

theorem findBreakDoc_endBreakProjUpdate (sid bid u : String) (d now : Int)
    (fs : Firestore) :
    findBreakDoc sid bid (endBreakProjUpdate u d now fs) =
      findBreakDoc sid bid fs := by
  unfold endBreakProjUpdate
  split
  · split
    · rfl
    · rfl
  · rfl

theorem findBreakDoc_startBreakProjUpdate (sid bid u bid' : String)
    (bt : BreakType) (now : Int) (fs : Firestore) :
    findBreakDoc sid bid (startBreakProjUpdate u bid' bt now fs) =
      findBreakDoc sid bid fs := by
  unfold startBreakProjUpdate
  split
  · split
    · rfl
    · rfl
  · rfl

/-! ## Claim C7 -/

/-- C7: an `endBreak` whose break id does not resolve under the given
session fails with the break-not-found error before any write, leaving
the entire store (session totals, counters, user projection) unchanged. -/
theorem C7_endBreak_not_found (sid bid uid : String) (notes : Option String)
    (now : Int) (fs : Firestore) (h : findBreakDoc sid bid fs = none) :
    endBreak sid bid uid notes now fs = (fs, .error "Break record not found") := by
  unfold endBreak
  rw [h]

/-- Witness for C7 on the empty store. -/
theorem C7_endBreak_not_found_witness :
    endBreak "s1" "break_1" "u1" none 0 (emptyFirestore "UTC") =
      (emptyFirestore "UTC", .error "Break record not found") :=
  C7_endBreak_not_found "s1" "break_1" "u1" none 0 (emptyFirestore "UTC") rfl

/-! ## Claim C10 -/

/-- C10: `endBreak` neither checks nor needs the break's status: as long
as the break document exists (active or already completed), every call
succeeds, recomputes a duration from the current instant, and adds it to
the session's `totalBreakTime` again — two calls on the same break fold
its duration into the session total twice. -/
theorem C10_endBreak_double (sid bid uid : String) (n1 n2 : Option String)
    (t1 t2 : Int) (fs : Firestore) (b : BreakRecord) (sess : CheckinSession)
    (hb : findBreakDoc sid bid fs = some b)
    (hs : findSession sid fs = some sess) :
    ∃ br1 br2 stored1 s',
      (endBreak sid bid uid n1 t1 fs).2 = .ok br1 ∧
      br1.duration = some (jsRoundDiv (t1 - b.startTime) 60000) ∧
      findBreakDoc sid bid (endBreak sid bid uid n1 t1 fs).1 = some stored1 ∧
      stored1.status = .completed ∧
      (endBreak sid bid uid n2 t2 (endBreak sid bid uid n1 t1 fs).1).2 = .ok br2 ∧
      br2.duration = some (jsRoundDiv (t2 - b.startTime) 60000) ∧
      findSession sid (endBreak sid bid uid n2 t2 (endBreak sid bid uid n1 t1 fs).1).1 = some s' ∧
      s'.totalBreakTime = sess.totalBreakTime +
        jsRoundDiv (t1 - b.startTime) 60000 +
        jsRoundDiv (t2 - b.startTime) 60000 := by
  obtain ⟨hbsid, hbbid⟩ := keys_of_findBreakDoc hb
  have hssid := sessionId_of_findSession hs
  simp only [endBreak, hb, findSession_putBreakDoc, hs,
    findBreakDoc_endBreakProjUpdate, findBreakDoc_putSessionDoc,
    findBreakDoc_putBreakDoc, findSession_endBreakProjUpdate,
    findSession_putSessionDoc, hbsid, hbbid, hssid, and_self, if_true]
  exact ⟨_, _, _, _, rfl, rfl, rfl, rfl, rfl, rfl, rfl, rfl⟩

/-- Data for the C10 witness: an active break of session `s1`. -/
def c10Break : BreakRecord :=
  { breakId := "break_0", sessionId := "s1", userId := "u1", type := .short,
    startTime := 0, endTime := none, duration := none,
    expectedDuration := some 15, notes := none, status := .active,
    createdAt := 0 }

/-- Data for the C10 witness: the session `s1` with no break time yet. -/
def c10Session : CheckinSession :=
  { sessionId := "s1", userId := "u1", username := "alice",
    date := "1970-01-01", checkinTime := 0, checkoutTime := none,
    status := .active, totalBreakTime := 0, totalWorkTime := none,
    notes := none, timezone := "UTC", createdAt := 0, updatedAt := 0,
    breakCount := 1, statusUpdateCount := 0, lastWorkStatus := none }

/-- Store holding the C10 witness session and break. -/
def c10Store : Firestore :=
  { emptyFirestore "UTC" with sessions := [c10Session], breaks := [c10Break] }

/-- Witness for C10: ending the same break at minutes 2 and 5 adds both
durations, leaving `totalBreakTime = 7`. -/
theorem C10_endBreak_double_witness :
    ∃ br1 br2 stored1 s',
      (endBreak "s1" "break_0" "u1" none 120000 c10Store).2 = .ok br1 ∧
      br1.duration = some 2 ∧
      findBreakDoc "s1" "break_0" (endBreak "s1" "break_0" "u1" none 120000 c10Store).1 = some stored1 ∧
      stored1.status = .completed ∧
      (endBreak "s1" "break_0" "u1" none 300000 (endBreak "s1" "break_0" "u1" none 120000 c10Store).1).2 = .ok br2 ∧
      br2.duration = some 5 ∧
      findSession "s1" (endBreak "s1" "break_0" "u1" none 300000 (endBreak "s1" "break_0" "u1" none 120000 c10Store).1).1 = some s' ∧
      s'.totalBreakTime = 7 := by
  obtain ⟨br1, br2, stored1, s', h1, h2, h3, h4, h5, h6, h7, h8⟩ :=
    C10_endBreak_double "s1" "break_0" "u1" none none 120000 300000 c10Store
      c10Break c10Session (by rfl) (by rfl)
  refine ⟨br1, br2, stored1, s', h1, ?_, h3, h4, h5, ?_, h7, ?_⟩
  · rw [h2]; norm_num [jsRoundDiv, c10Break]
  · rw [h6]; norm_num [jsRoundDiv, c10Break]
  · rw [h8]; norm_num [jsRoundDiv, c10Break, c10Session]

/-! ## Claim C9 -/

/-- C9 amended: `startBreak` takes `expectedDuration` from the static
break-type table (`short = 15`, `lunch = 45`, `personal = 20`,
`meeting = none`), and the break-end summary is flagged exactly when the
expected duration is truthy, the recorded duration is truthy (in
particular nonzero — a 0-minute break is never flagged, by JavaScript
numeric falsiness), and the difference exceeds 5 minutes either way;
`meeting` breaks are never flagged. -/
theorem C9_expectedDuration_and_variance :
    (∀ (sid uid : String) (bt : BreakType) (notes : Option String)
      (now : Int) (fs : Firestore) (b : BreakRecord),
      (startBreak sid uid bt notes now fs).2 = .ok b →
        b.expectedDuration = (BREAK_TYPES bt).duration) ∧
    (BREAK_TYPES .short).duration = some 15 ∧
    (BREAK_TYPES .lunch).duration = some 45 ∧
    (BREAK_TYPES .personal).duration = some 20 ∧
    (BREAK_TYPES .meeting).duration = none ∧
    (∀ (b : BreakRecord) (e d : Int),
      (BREAK_TYPES b.type).duration = some e → b.duration = some d →
      d ≠ 0 → 5 < d - e →
      breakEndDurationText b =
        Int.repr d ++ " minutes" ++ " (" ++ Int.repr (d - e) ++
          " min longer than expected)") ∧
    (∀ (b : BreakRecord) (e d : Int),
      (BREAK_TYPES b.type).duration = some e → b.duration = some d →
      d ≠ 0 → d - e < -5 →
      breakEndDurationText b =
        Int.repr d ++ " minutes" ++ " (" ++ Int.repr (-(d - e)) ++
          " min shorter than expected)") ∧
    (∀ (b : BreakRecord), b.duration = some 0 →
      breakEndDurationText b = Int.repr 0 ++ " minutes") ∧
    (∀ (b : BreakRecord), b.type = .meeting →
      breakEndDurationText b =
        (match b.duration with
          | some d => Int.repr d
          | none => "undefined") ++ " minutes") ∧
    (∀ (b : BreakRecord) (e d : Int),
      (BREAK_TYPES b.type).duration = some e → b.duration = some d →
      -5 ≤ d - e → d - e ≤ 5 →
      breakEndDurationText b = Int.repr d ++ " minutes") := by
  refine ⟨?_, rfl, rfl, rfl, rfl, ?_, ?_, ?_, ?_, ?_⟩
  · intro sid uid bt notes now fs b h
    simp only [startBreak] at h
    split at h
    · simp at h
    · simp only [Except.ok.injEq] at h
      rw [← h]
  · intro b e d he hd hne hgt
    have het : numTruthy (some e) = true := by
      cases hbt : b.type <;> rw [hbt] at he <;>
        simp [BREAK_TYPES] at he <;> simp [numTruthy, ← he]
    simp only [breakEndDurationText, hd, he, Option.getD_some]
    rw [if_pos ⟨het, by simp [numTruthy, hne]⟩]
    rw [if_pos (by omega)]
  · intro b e d he hd hne hlt
    have het : numTruthy (some e) = true := by
      cases hbt : b.type <;> rw [hbt] at he <;>
        simp [BREAK_TYPES] at he <;> simp [numTruthy, ← he]
    simp only [breakEndDurationText, hd, he, Option.getD_some]
    rw [if_pos ⟨het, by simp [numTruthy, hne]⟩]
    rw [if_neg (by omega), if_pos (by omega)]
  · intro b hd
    simp only [breakEndDurationText, hd, Option.getD_some]
    rw [if_neg (by simp [numTruthy])]
  · intro b hbt
    simp only [breakEndDurationText, hbt, Option.getD_some]
    rw [if_neg (by simp [BREAK_TYPES, numTruthy])]
  · intro b e d he hd h1 h2
    by_cases hd0 : d = 0
    · simp only [breakEndDurationText, hd, he, Option.getD_some]
      rw [if_neg (by simp [numTruthy, hd0])]
    · have het : numTruthy (some e) = true := by
        cases hbt : b.type <;> rw [hbt] at he <;>
          simp [BREAK_TYPES] at he <;> simp [numTruthy, ← he]
      simp only [breakEndDurationText, hd, he, Option.getD_some]
      rw [if_pos ⟨het, by simp [numTruthy, hd0]⟩]
      rw [if_neg (by omega), if_neg (by omega)]

/-- Data for the C9 counterexample: an active short break of session
`s1`, started at instant 0. -/
def c9Break : BreakRecord :=
  { breakId := "break_0", sessionId := "s1", userId := "u1", type := .short,
    startTime := 0, endTime := none, duration := none,
    expectedDuration := some 15, notes := none, status := .active,
    createdAt := 0 }

/-- Data for the C9 counterexample: the session `s1`. -/
def c9Session : CheckinSession :=
  { sessionId := "s1", userId := "u1", username := "alice",
    date := "1970-01-01", checkinTime := 0, checkoutTime := none,
    status := .active, totalBreakTime := 0, totalWorkTime := none,
    notes := none, timezone := "UTC", createdAt := 0, updatedAt := 0,
    breakCount := 1, statusUpdateCount := 0, lastWorkStatus := none }

/-- Data for the C9 counterexample: the user is on that break. -/
def c9Status : UserStatus :=
  { userId := "u1", username := "alice", status := .onBreak,
    currentSessionId := some "s1", lastCheckin := some 0,
    lastCheckout := none, lastActivity := 0, timezone := some "UTC",
    currentSession := some
      { checkinTime := 0, totalBreakTime := 0,
        currentBreak := some { id := "break_0", type := .short, startTime := 0 },
        currentWorkStatus := none, statusUpdateCount := 0 } }

/-- Store for the C9 counterexample. -/
def c9Store : Firestore :=
  { emptyFirestore "UTC" with userStatuses := [c9Status], sessions := [c9Session], breaks := [c9Break] }

/-- The break record `handleBreakEnd` returns in the C9 counterexample. -/
def c9Ended : BreakRecord :=
  { breakId := "break_0", sessionId := "s1", userId := "u1", type := .short,
    startTime := 0, endTime := some 10000, duration := some 0,
    expectedDuration := some 15, notes := none, status := .completed,
    createdAt := 0 }

/-- Counterexample to C9 as stated: ending the short break 10 seconds
after it started records `duration = 0`, which differs from the expected
15 minutes by more than 5 minutes, yet the human-facing summary is the
bare `"0 minutes"` with no longer/shorter-than-expected flag (the `0` is
falsy in the JavaScript guard). -/
theorem C9_counterexample :
    (handleBreakEnd "u1" "" 10000 c9Store).2 = .success c9Ended "0 minutes" ∧
    c9Ended.duration = some 0 ∧
    (BREAK_TYPES c9Ended.type).duration = some 15 := by
  refine ⟨?_, rfl, rfl⟩
  rfl

/-- The break record `startBreak` creates in the C9 witness. -/
def c9LunchStarted : BreakRecord :=
  { breakId := "break_0", sessionId := "s1", userId := "u1", type := .lunch,
    startTime := 0, endTime := none, duration := none,
    expectedDuration := some 45, notes := none, status := .active,
    createdAt := 0 }

/-- Witness for the amended C9: a 21-minute short break is flagged as 6
minutes longer than expected, and a started break copies the table's
expected duration. -/
theorem C9_expectedDuration_and_variance_witness :
    breakEndDurationText
      { breakId := "break_0", sessionId := "s1", userId := "u1",
        type := .short, startTime := 0, endTime := some 1260000,
        duration := some 21, expectedDuration := some 15, notes := none,
        status := .completed, createdAt := 0 } =
      "21 minutes (6 min longer than expected)" ∧
    (startBreak "s1" "u1" BreakType.lunch none 0 c9Store).2.toOption.map
      (fun b => b.expectedDuration) = some (some 45) := by
  constructor
  · have h := C9_expectedDuration_and_variance.2.2.2.2.2.1
      { breakId := "break_0", sessionId := "s1", userId := "u1",
        type := .short, startTime := 0, endTime := some 1260000,
        duration := some 21, expectedDuration := some 15, notes := none,
        status := .completed, createdAt := 0 }
      15 21 rfl rfl (by norm_num) (by norm_num)
    rw [h]
    rfl
  · have h := C9_expectedDuration_and_variance.1 "s1" "u1" BreakType.lunch
      none 0 c9Store
    have hr : (startBreak "s1" "u1" BreakType.lunch none 0 c9Store).2 =
        .ok c9LunchStarted := rfl
    have hb := h c9LunchStarted hr
    rw [hr]
    simp [Except.toOption, hb, BREAK_TYPES]

/-! ## Claim C8 -/

/-- Sessions backing the C8 counterexample stores. -/
def c8SessionA : CheckinSession :=
  { c9Session with sessionId := "s1", userId := "alice" }

/-- Second session for the C8 counterexample. -/
def c8SessionB : CheckinSession :=
  { c9Session with sessionId := "s2", userId := "bob" }

/-- Store for the C8 counterexample. -/
def c8Store : Firestore :=
  { emptyFirestore "UTC" with sessions := [c8SessionA, c8SessionB] }

/-- Counterexample to C8 as stated: two distinct break-creation events —
different users, different sessions — in the same millisecond receive
the very same `breakId` (`generateBreakId` depends on nothing but
`Date.now()`), so break ids are not unique across users and sessions. -/
theorem C8_counterexample :
    ∃ b1 b2 : BreakRecord,
      (startBreak "s1" "alice" .short none 1700000000000 c8Store).2 = .ok b1 ∧
      (startBreak "s2" "bob" .lunch none 1700000000000 c8Store).2 = .ok b2 ∧
      b1.userId ≠ b2.userId ∧
      b1.sessionId ≠ b2.sessionId ∧
      b1.breakId = b2.breakId := by
  refine ⟨_, _, rfl, rfl, by decide, by decide, rfl⟩

/-- C8 amended: identifier uniqueness holds exactly up to the creation
millisecond: `generateSessionId` is injective in the `(userId, instant)`
pair (so session ids of different users, or of different instants, never
collide), and `generateBreakId` / `generateStatusUpdateId` are injective
in the instant alone — events in the same millisecond, which the code
does nothing to separate, share an id. -/
theorem C8_identifier_uniqueness :
    (∀ (u1 u2 : String) (t1 t2 : Int),
      generateSessionId u1 t1 = generateSessionId u2 t2 → u1 = u2 ∧ t1 = t2) ∧
    (∀ t1 t2 : Int, t1 ≠ t2 → generateBreakId t1 ≠ generateBreakId t2) ∧
    (∀ t1 t2 : Int, t1 ≠ t2 →
      generateStatusUpdateId t1 ≠ generateStatusUpdateId t2) := by
  refine ⟨?_, ?_, ?_⟩
  · intro u1 u2 t1 t2 h
    exact generateSessionId_inj h
  · intro t1 t2 hne h
    exact hne (generateBreakId_inj h)
  · intro t1 t2 hne h
    exact hne (generateStatusUpdateId_inj h)

/-- Witness for the amended C8 at concrete inputs. -/
theorem C8_identifier_uniqueness_witness :
    ("alice" = "alice" ∧ (5 : Int) = 5) ∧
    generateBreakId 1 ≠ generateBreakId 2 ∧
    generateStatusUpdateId 3 ≠ generateStatusUpdateId 4 :=
  ⟨C8_identifier_uniqueness.1 "alice" "alice" 5 5 rfl,
   C8_identifier_uniqueness.2.1 1 2 (by decide),
   C8_identifier_uniqueness.2.2 3 4 (by decide)⟩

theorem breaks_putSessionDoc (d : CheckinSession) (fs : Firestore) :
    (putSessionDoc d fs).breaks = fs.breaks := rfl

theorem breaks_updateUserStatus (u : String) (p : UserStatusPatch) (now : Int)
    (fs : Firestore) : (updateUserStatus u p now fs).breaks = fs.breaks := rfl

theorem breaks_endBreakProjUpdate (u : String) (d now : Int)
    (fs : Firestore) : (endBreakProjUpdate u d now fs).breaks = fs.breaks := by
  unfold endBreakProjUpdate
  split
  · split
    · rfl
    · rfl
  · rfl

theorem breaks_completeCheckinSession (sid : String) (notes : Option String)
    (now : Int) (fs : Firestore) :
    (completeCheckinSession sid notes now fs).1.breaks = fs.breaks := by
  unfold completeCheckinSession
  split
  · rfl
  · rfl

theorem findSession_completeCheckinSession_found (sid : String)
    (notes : Option String) (now : Int) (fs : Firestore)
    (sess : CheckinSession) (h : findSession sid fs = some sess) :
    findSession sid (completeCheckinSession sid notes now fs).1 =
      some { sess with
        checkoutTime := some now,
        status := .completed,
        totalWorkTime := some (jsRoundDiv (now - sess.checkinTime -
          60000 * sess.totalBreakTime) 60000),
        updatedAt := now,
        notes := if strTruthy notes then
            some { checkin := sess.notes.bind (fun n => n.checkin),
                   checkout := notes }
          else sess.notes } := by
  have hsid := sessionId_of_findSession h
  simp only [completeCheckinSession, h, findSession_updateUserStatus]
  rw [findSession_putSessionDoc]
  simp only [hsid, if_pos]

/-- Evaluation of `getUserCurrentState` when the status record and the
session resolve. -/
theorem getUserCurrentState_resolved (uid sid : String) (fs : Firestore)
    (st : UserStatus) (sess : CheckinSession)
    (hst : findUserStatus uid fs = some st)
    (hsid : st.currentSessionId = some sid)
    (hsess : findSession sid fs = some sess) :
    getUserCurrentState uid fs = some
      { status := st, currentSession := some sess,
        activeBreak :=
          match st.currentSession with
          | some proj =>
              match proj.currentBreak with
              | some cb =>
                  (getSessionBreaks sid fs).find? (fun b => b.breakId == cb.id)
              | none => none
          | none => none,
        recentStatusUpdates := some (getSessionStatusUpdates sid (some 5) fs) } := by
  simp only [getUserCurrentState, hst, hsid, hsess]

/-- The subcollection query finds exactly the stored break when break
ids are unique within the session. -/
theorem sessionBreaks_find_unique (sid bid : String) (fs : Firestore)
    (b : BreakRecord) (hb : findBreakDoc sid bid fs = some b)
    (huniq : ∀ x ∈ fs.breaks, x.sessionId = sid → x.breakId = bid → x = b) :
    (getSessionBreaks sid fs).find? (fun x => x.breakId == bid) = some b := by
  obtain ⟨h1, h2⟩ := keys_of_findBreakDoc hb
  have hmem : b ∈ fs.breaks := List.mem_of_find?_eq_some hb
  apply find?_eq_of_unique
  · unfold getSessionBreaks
    rw [mem_sortDocs, List.mem_filter]
    exact ⟨hmem, by simp [h1]⟩
  · simp [h2]
  · intro x hx hpx
    unfold getSessionBreaks at hx
    rw [mem_sortDocs, List.mem_filter] at hx
    exact huniq x hx.1 (by simpa using hx.2) (by simpa using hpx)

theorem findBreakDoc_completeCheckinSession (sid bid sid' : String)
    (notes : Option String) (now : Int) (fs : Firestore) :
    findBreakDoc sid bid (completeCheckinSession sid' notes now fs).1 =
      findBreakDoc sid bid fs := by
  unfold completeCheckinSession
  split
  · rfl
  · rfl

/-- Evaluation of `endBreak` when the break and session documents
resolve. -/
theorem endBreak_found (sid bid uid : String) (notes : Option String)
    (now : Int) (fs : Firestore) (b : BreakRecord) (sess : CheckinSession)
    (hb : findBreakDoc sid bid fs = some b)
    (hs : findSession sid fs = some sess) :
    endBreak sid bid uid notes now fs =
      (endBreakProjUpdate uid (jsRoundDiv (now - b.startTime) 60000) now
        (putSessionDoc
          { sess with
            totalBreakTime := sess.totalBreakTime +
              jsRoundDiv (now - b.startTime) 60000,
            updatedAt := now }
          (putBreakDoc
            { b with
              endTime := some now,
              duration := some (jsRoundDiv (now - b.startTime) 60000),
              status := .completed,
              notes := orKeep (endBreakNewNotes b.notes notes) b.notes } fs)),
       .ok { b with
         endTime := some now,
         duration := some (jsRoundDiv (now - b.startTime) 60000),
         status := .completed,
         notes := endBreakNewNotes b.notes notes }) := by
  simp only [endBreak, hb, findSession_putBreakDoc, hs]

/-- Evaluation of `completeCheckinSession` when the session resolves. -/
theorem completeCheckinSession_found (sid : String) (notes : Option String)
    (now : Int) (fs : Firestore) (sess : CheckinSession)
    (h : findSession sid fs = some sess) :
    completeCheckinSession sid notes now fs =
      (updateUserStatus sess.userId
        { status := some .checkedOut, lastCheckout := some now } now
        (putSessionDoc
          { sess with
            checkoutTime := some now,
            status := .completed,
            totalWorkTime := some (jsRoundDiv (now - sess.checkinTime -
              60000 * sess.totalBreakTime) 60000),
            updatedAt := now,
            notes := if strTruthy notes then
                some { checkin := sess.notes.bind (fun n => n.checkin),
                       checkout := notes }
              else sess.notes } fs),
       .ok ()) := by
  simp only [completeCheckinSession, h]

/-! ## Claim C3 -/

/-- C3: a checkout issued while on a break first force-ends the active
break with the auto-end note `"Auto-ended due to checkout"` (the
recorded reason for the forced end), folds its duration into the
session's `totalBreakTime` before the totals are computed, and leaves no
break of the session in status `active`. -/
theorem C3_checkout_autoends_break (uid text sid : String) (now : Int)
    (fs : Firestore) (st : UserStatus) (proj : CurrentSessionProj)
    (cb : CurrentBreakInfo) (sess : CheckinSession) (b : BreakRecord)
    (hst : findUserStatus uid fs = some st)
    (hstat : st.status = .onBreak)
    (hsid : st.currentSessionId = some sid)
    (hproj : st.currentSession = some proj)
    (hcb : proj.currentBreak = some cb)
    (hsess : findSession sid fs = some sess)
    (hbrk : findBreakDoc sid cb.id fs = some b)
    (huniq : ∀ x ∈ fs.breaks, x.sessionId = sid → x.breakId = cb.id → x = b)
    (honly : ∀ x ∈ fs.breaks, x.sessionId = sid → x.status = .active →
      x.breakId = cb.id) :
    (handleCheckout uid text now fs).2 = .success ∧
    (∃ b', findBreakDoc sid cb.id (handleCheckout uid text now fs).1 = some b' ∧
      b'.status = .completed ∧ b'.endTime = some now ∧
      b'.duration = some (jsRoundDiv (now - b.startTime) 60000) ∧
      b'.notes = some (match b.notes with
        | some old => old ++ " | End: " ++ "Auto-ended due to checkout"
        | none => "End: " ++ "Auto-ended due to checkout")) ∧
    (∀ x ∈ (handleCheckout uid text now fs).1.breaks, x.sessionId = sid →
      x.status ≠ .active) ∧
    (∃ s', findSession sid (handleCheckout uid text now fs).1 = some s' ∧
      s'.status = .completed ∧
      s'.totalBreakTime = sess.totalBreakTime +
        jsRoundDiv (now - b.startTime) 60000 ∧
      s'.totalWorkTime = some (jsRoundDiv (now - sess.checkinTime) 60000 -
        (sess.totalBreakTime + jsRoundDiv (now - b.startTime) 60000))) := by
  have hsessid := sessionId_of_findSession hsess
  have hbkeys := keys_of_findBreakDoc hbrk
  have hfind := sessionBreaks_find_unique sid cb.id fs b hbrk huniq
  have hgucs := getUserCurrentState_resolved uid sid fs st sess hst hsid hsess
  simp only [hproj, hcb, hfind] at hgucs
  have hend := endBreak_found sid cb.id uid (some "Auto-ended due to checkout")
    now fs b sess hbrk hsess
  have hend2 : (endBreak sid cb.id uid (some "Auto-ended due to checkout")
      now fs).2 = .ok { b with
        endTime := some now,
        duration := some (jsRoundDiv (now - b.startTime) 60000),
        status := .completed,
        notes := endBreakNewNotes b.notes (some "Auto-ended due to checkout") } := by
    rw [hend]
  have hsessA : findSession sid (endBreak sid cb.id uid
      (some "Auto-ended due to checkout") now fs).1 = some { sess with
        totalBreakTime := sess.totalBreakTime +
          jsRoundDiv (now - b.startTime) 60000,
        updatedAt := now } := by
    rw [hend]
    simp only [findSession_endBreakProjUpdate]
    rw [findSession_putSessionDoc]
    simp [hsessid]
  have hbrkA : findBreakDoc sid cb.id (endBreak sid cb.id uid
      (some "Auto-ended due to checkout") now fs).1 = some { b with
        endTime := some now,
        duration := some (jsRoundDiv (now - b.startTime) 60000),
        status := .completed,
        notes := orKeep (endBreakNewNotes b.notes
          (some "Auto-ended due to checkout")) b.notes } := by
    rw [hend]
    simp only [findBreakDoc_endBreakProjUpdate, findBreakDoc_putSessionDoc]
    rw [findBreakDoc_putBreakDoc]
    simp [hbkeys.1, hbkeys.2]
  have hbreaksA : (endBreak sid cb.id uid
      (some "Auto-ended due to checkout") now fs).1.breaks =
      { b with
        endTime := some now,
        duration := some (jsRoundDiv (now - b.startTime) 60000),
        status := .completed,
        notes := orKeep (endBreakNewNotes b.notes
          (some "Auto-ended due to checkout")) b.notes } ::
      fs.breaks.filter (fun x =>
        !(x.sessionId == b.sessionId && x.breakId == b.breakId)) := by
    rw [hend]
    rw [breaks_endBreakProjUpdate, breaks_putSessionDoc]
    rfl
  have hcomp := completeCheckinSession_found sid (some text) now _ _ hsessA
  have hcomp2 : (completeCheckinSession sid (some text) now (endBreak sid cb.id
      uid (some "Auto-ended due to checkout") now fs).1).2 = .ok () := by
    rw [hcomp]
  have hfinal := findSession_completeCheckinSession_found sid (some text) now _
    _ hsessA
  simp only [handleCheckout, hgucs, hstat]
  rw [hsessid, hbkeys.2]
  simp only [if_true, hend2, hcomp2, getCheckinSession, hfinal,
    Option.isNone_some, Bool.false_eq_true, if_false,
    show (UserStatusKind.onBreak = UserStatusKind.checkedOut) = False from by
      simp]
  have hbrkF : findBreakDoc sid cb.id
      ((completeCheckinSession sid (some text) now (endBreak sid cb.id uid
        (some "Auto-ended due to checkout") now fs).1).1) = some { b with
          endTime := some now,
          duration := some (jsRoundDiv (now - b.startTime) 60000),
          status := .completed,
          notes := orKeep (endBreakNewNotes b.notes
            (some "Auto-ended due to checkout")) b.notes } := by
    rw [findBreakDoc_completeCheckinSession]
    exact hbrkA
  refine ⟨?_, ?_, ?_, ?_⟩
  · trivial
  · exact ⟨_, hbrkF, rfl, rfl, rfl, by
      cases hbn : b.notes <;> simp [endBreakNewNotes, orKeep, hbn]⟩
  · intro x hx hxsid hxact
    rw [breaks_completeCheckinSession, hbreaksA] at hx
    rcases List.mem_cons.mp hx with hx | hx
    · rw [hx] at hxact
      simp at hxact
    · rw [List.mem_filter] at hx
      have hxbid := honly x hx.1 hxsid hxact
      have := hx.2
      rw [hbkeys.1, hbkeys.2] at this
      simp [hxsid, hxbid] at this
  · exact ⟨_, rfl, rfl, rfl, by
      show some (jsRoundDiv (now - sess.checkinTime - 60000 *
        (sess.totalBreakTime + jsRoundDiv (now - b.startTime) 60000)) 60000) = _
      rw [jsRoundDiv_sub_mul]⟩

/-- Witness for C3: checking out ten minutes into the session, while the
ten-minute break `break_0` is still running, completes the break with
the auto-end note, folds its 10 minutes into `totalBreakTime`, and
stores `totalWorkTime = 10 - 10 = 0`. -/
theorem C3_checkout_autoends_break_witness :
    (handleCheckout "u1" "bye" 600000 c9Store).2 = .success ∧
    (∃ b', findBreakDoc "s1" "break_0"
        (handleCheckout "u1" "bye" 600000 c9Store).1 = some b' ∧
      b'.status = .completed ∧ b'.endTime = some 600000 ∧
      b'.duration = some 10 ∧
      b'.notes = some "End: Auto-ended due to checkout") ∧
    (∀ x ∈ (handleCheckout "u1" "bye" 600000 c9Store).1.breaks,
      x.sessionId = "s1" → x.status ≠ .active) ∧
    (∃ s', findSession "s1" (handleCheckout "u1" "bye" 600000 c9Store).1 =
        some s' ∧
      s'.status = .completed ∧ s'.totalBreakTime = 10 ∧
      s'.totalWorkTime = some 0) := by
  obtain ⟨h1, ⟨b', hb1, hb2, hb3, hb4, hb5⟩, h3, ⟨s', hs1, hs2, hs3, hs4⟩⟩ :=
    C3_checkout_autoends_break "u1" "bye" "s1" 600000 c9Store c9Status _ _
      c9Session c9Break rfl rfl rfl rfl rfl rfl rfl (by decide) (by decide)
  refine ⟨h1, ⟨b', hb1, hb2, hb3, ?_, ?_⟩, h3, ⟨s', hs1, hs2, ?_, ?_⟩⟩
  · rw [hb4]
    norm_num [jsRoundDiv, c9Break]
  · rw [hb5]
    rfl
  · rw [hs3]
    norm_num [jsRoundDiv, c9Break, c9Session]
  · rw [hs4]
    norm_num [jsRoundDiv, c9Break, c9Session]

/-! ## The most-recent-update timestamp (specification-side) -/

/-- Modelled from the spec: the timestamp of the most recent status
update of a session — the maximum `timestamp` over the session's
`status_updates` subcollection, `none` when there are none.  This is the
specification's description of step 3 of the scheduler; the code reaches
it through the head of the sorted `recentStatusUpdates` query, and the
claim-C6 theorem proves the two agree. -/
def specLatestUpdateTimestamp (sid : String) (fs : Firestore) : Option Int :=
  (fs.statusUpdates.filter (fun u => u.sessionId == sid)).foldl
    (fun acc u =>
      match acc with
      | none => some u.timestamp
      | some t => if t < u.timestamp then some u.timestamp else acc)
    none

theorem maxTs_foldl_some (l : List StatusUpdate) (a : Int) :
    ∃ m, l.foldl
        (fun acc u =>
          match acc with
          | none => some u.timestamp
          | some t => if t < u.timestamp then some u.timestamp else acc)
        (some a) = some m ∧
      (m = a ∨ ∃ v ∈ l, v.timestamp = m) ∧ a ≤ m ∧
      ∀ v ∈ l, v.timestamp ≤ m := by
  induction l generalizing a with
  | nil => exact ⟨a, rfl, Or.inl rfl, le_refl a, by simp⟩
  | cons u l ih =>
      by_cases h : a < u.timestamp
      · obtain ⟨m, h1, h2, h3, h4⟩ := ih u.timestamp
        refine ⟨m, ?_, ?_, by omega, ?_⟩
        · simpa [h] using h1
        · rcases h2 with h2 | ⟨v, hv, hvm⟩
          · exact Or.inr ⟨u, List.mem_cons_self u l, h2.symm⟩
          · exact Or.inr ⟨v, List.mem_cons_of_mem u hv, hvm⟩
        · intro v hv
          rcases List.mem_cons.mp hv with hv | hv
          · rw [hv]; exact h3
          · exact h4 v hv
      · obtain ⟨m, h1, h2, h3, h4⟩ := ih a
        refine ⟨m, ?_, ?_, h3, ?_⟩
        · simpa [h] using h1
        · rcases h2 with h2 | ⟨v, hv, hvm⟩
          · exact Or.inl h2
          · exact Or.inr ⟨v, List.mem_cons_of_mem u hv, hvm⟩
        · intro v hv
          rcases List.mem_cons.mp hv with hv | hv
          · rw [hv]; omega
          · exact h4 v hv

theorem specLatestUpdateTimestamp_eq_none_iff (sid : String) (fs : Firestore) :
    specLatestUpdateTimestamp sid fs = none ↔
      fs.statusUpdates.filter (fun u => u.sessionId == sid) = [] := by
  unfold specLatestUpdateTimestamp
  cases h : fs.statusUpdates.filter (fun u => u.sessionId == sid) with
  | nil => simp
  | cons u l =>
      simp only [List.foldl_cons]
      obtain ⟨m, h1, _⟩ := maxTs_foldl_some l u.timestamp
      simp [h1]

theorem specLatestUpdateTimestamp_spec (sid : String) (fs : Firestore)
    (u : StatusUpdate) (l : List StatusUpdate)
    (h : fs.statusUpdates.filter (fun x => x.sessionId == sid) = u :: l) :
    ∃ m, specLatestUpdateTimestamp sid fs = some m ∧
      (∃ v ∈ u :: l, v.timestamp = m) ∧ ∀ v ∈ u :: l, v.timestamp ≤ m := by
  unfold specLatestUpdateTimestamp
  rw [h]
  simp only [List.foldl_cons]
  obtain ⟨m, h1, h2, h3, h4⟩ := maxTs_foldl_some l u.timestamp
  refine ⟨m, h1, ?_, ?_⟩
  · rcases h2 with h2 | ⟨v, hv, hvm⟩
    · exact ⟨u, List.mem_cons_self u l, h2.symm⟩
    · exact ⟨v, List.mem_cons_of_mem u hv, hvm⟩
  · intro v hv
    rcases List.mem_cons.mp hv with hv | hv
    · rw [hv]; exact h3
    · exact h4 v hv

theorem statusUpdateQueryLe_total (a b : StatusUpdate) :
    statusUpdateQueryLe a b = true ∨ statusUpdateQueryLe b a = true := by
  unfold statusUpdateQueryLe
  simp only [Bool.or_eq_true, Bool.and_eq_true, decide_eq_true_eq]
  rcases lt_trichotomy a.timestamp b.timestamp with h | h | h
  · right; left; exact h
  · rcases le_total a.updateId b.updateId with h2 | h2
    · left; right; exact ⟨h, h2⟩
    · right; right; exact ⟨h.symm, h2⟩
  · left; left; exact h

theorem statusUpdateQueryLe_trans (a b c : StatusUpdate)
    (h1 : statusUpdateQueryLe a b = true)
    (h2 : statusUpdateQueryLe b c = true) :
    statusUpdateQueryLe a c = true := by
  unfold statusUpdateQueryLe at h1 h2 ⊢
  simp only [Bool.or_eq_true, Bool.and_eq_true, decide_eq_true_eq] at h1 h2 ⊢
  rcases h1 with h1 | ⟨h1, h1'⟩
  · rcases h2 with h2 | ⟨h2, h2'⟩
    · left; omega
    · left; omega
  · rcases h2 with h2 | ⟨h2, h2'⟩
    · left; omega
    · right; exact ⟨by omega, le_trans h1' h2'⟩

theorem statusUpdateQueryLe_ts {a b : StatusUpdate}
    (h : statusUpdateQueryLe a b = true) : b.timestamp ≤ a.timestamp := by
  unfold statusUpdateQueryLe at h
  simp only [Bool.or_eq_true, Bool.and_eq_true, decide_eq_true_eq] at h
  rcases h with h | ⟨h, _⟩ <;> omega

/-- The head of the sorted status-update query carries the maximal
timestamp of the session's updates. -/
theorem head_getSessionStatusUpdates_ts (sid : String) (fs : Firestore)
    (limit : Nat) (u : StatusUpdate) (rest : List StatusUpdate)
    (h : getSessionStatusUpdates sid (some limit) fs = u :: rest) :
    specLatestUpdateTimestamp sid fs = some u.timestamp := by
  simp only [getSessionStatusUpdates] at h
  have hsorted : ∃ t, sortDocs statusUpdateQueryLe
      (fs.statusUpdates.filter (fun x => x.sessionId == sid)) = u :: t := by
    by_cases hl : limit = 0
    · exact ⟨rest, by simpa [hl] using h⟩
    · rw [if_neg hl] at h
      cases hs : sortDocs statusUpdateQueryLe
          (fs.statusUpdates.filter (fun x => x.sessionId == sid)) with
      | nil => rw [hs] at h; simp at h
      | cons v t =>
          rw [hs] at h
          cases limit with
          | zero => exact absurd rfl hl
          | succ n =>
              simp only [List.take_succ_cons, List.cons.injEq] at h
              exact ⟨t, by rw [h.1]⟩
  obtain ⟨t, hs⟩ := hsorted
  have hpw := pairwise_sortDocs statusUpdateQueryLe_total
    statusUpdateQueryLe_trans
    (fs.statusUpdates.filter (fun x => x.sessionId == sid))
  rw [hs] at hpw
  have hmax : ∀ v ∈ fs.statusUpdates.filter (fun x => x.sessionId == sid),
      v.timestamp ≤ u.timestamp := by
    intro v hv
    have : v ∈ u :: t := by
      rw [← hs, mem_sortDocs]
      exact hv
    rcases List.mem_cons.mp this with hv' | hv'
    · rw [hv']
    · exact statusUpdateQueryLe_ts ((List.pairwise_cons.mp hpw).1 v hv')
  have humem : u ∈ fs.statusUpdates.filter (fun x => x.sessionId == sid) := by
    rw [← @mem_sortDocs _ statusUpdateQueryLe _ _, hs]
    exact List.mem_cons_self u t
  cases hfil : fs.statusUpdates.filter (fun x => x.sessionId == sid) with
  | nil => rw [hfil] at humem; simp at humem
  | cons w wl =>
      obtain ⟨m, hm1, ⟨v, hv, hvm⟩, hm3⟩ :=
        specLatestUpdateTimestamp_spec sid fs w wl hfil
      rw [hm1]
      have h1 : u.timestamp ≤ m := by
        apply hm3
        rw [← hfil]
        exact humem
      have h2 : m ≤ u.timestamp := by
        rw [← hvm]
        apply hmax
        rw [hfil]
        exact hv
      have : m = u.timestamp := le_antisymm h2 h1
      rw [this]

theorem sortDocs_eq_nil_iff {le : α → α → Bool} {l : List α} :
    sortDocs le l = [] ↔ l = [] := by
  cases l with
  | nil => simp [sortDocs]
  | cons a l =>
      simp only [sortDocs]
      constructor
      · intro h
        exfalso
        have : a ∈ insertSorted le a (sortDocs le l) :=
          mem_insertSorted.mpr (Or.inl rfl)
        rw [h] at this
        simp at this
      · intro h
        simp at h

theorem sendStatusReminder_checkedIn (uid : String) (now : Int)
    (fs : Firestore) (us : UserCurrentState)
    (h : getUserCurrentState uid fs = some us)
    (hstat : us.status.status = .checkedIn) :
    (sendStatusReminder uid true now fs).2 = true := by
  simp only [sendStatusReminder, h]
  rw [if_neg (by simp [hstat])]
  simp

/-! ## Claim C6 -/

/-- C6: on a scheduler tick, an active reminder whose user's live status
is not `checked-in` (on-break, checked-out, offline) is skipped with no
state change and no send; for a checked-in user with a resolvable
session, a reminder is delivered exactly when 45 minutes have passed
since the reference instant — the reminder's `lastStatusUpdate` if set,
else the maximal timestamp among the session's status updates, else the
session's `checkinTime` — and no reminder went out in the previous 45
minutes. -/
theorem C6_tick_skip_and_reference :
    (∀ (sendOk : Bool) (now : Int) (r : StatusReminder) (fs : Firestore)
      (sent : List String) (us : UserCurrentState),
      getUserCurrentState r.userId fs = some us →
      us.status.status ≠ .checkedIn →
      processReminder sendOk now (fs, sent) r = (fs, sent)) ∧
    (∀ (now : Int) (r : StatusReminder) (fs : Firestore) (sent : List String)
      (st : UserStatus) (sid : String) (sess : CheckinSession),
      findUserStatus r.userId fs = some st →
      st.status = .checkedIn →
      st.currentSessionId = some sid →
      findSession sid fs = some sess →
      (processReminder true now (fs, sent) r).2 =
        if REMINDER_INTERVAL_MS ≤ now -
            (r.lastStatusUpdate.getD
              ((specLatestUpdateTimestamp sid fs).getD sess.checkinTime)) ∧
          (match r.lastReminderSent with
            | some t => decide (REMINDER_INTERVAL_MS ≤ now - t)
            | none => true) = true
        then sent ++ [r.userId] else sent) := by
  constructor
  · intro sendOk now r fs sent us h hne
    simp only [processReminder, h]
    rw [if_pos hne]
  · intro now r fs sent st sid sess hst hstat hsid hsess
    have hgucs := getUserCurrentState_resolved r.userId sid fs st sess hst
      hsid hsess
    have hsend := sendStatusReminder_checkedIn r.userId now fs _ hgucs hstat
    simp only [processReminder, hgucs]
    rw [if_neg (by simp [hstat])]
    cases hlsu : r.lastStatusUpdate with
    | some t =>
        simp only [hlsu, Option.getD_some]
        by_cases hdue : REMINDER_INTERVAL_MS ≤ now - t
        · rw [if_pos hdue]
          cases hlrs : r.lastReminderSent with
          | none =>
              simp only [hlrs, Bool.false_eq_true, if_false, hsend, if_true]
              rw [if_pos ⟨hdue, trivial⟩]
          | some rr =>
              simp only [hlrs]
              by_cases hthr : now - rr < REMINDER_INTERVAL_MS
              · rw [if_pos (by simpa using hthr)]
                rw [if_neg (by
                  intro hc
                  have := of_decide_eq_true hc.2
                  omega)]
              · rw [if_neg (by simpa using hthr)]
                simp only [hsend, if_true]
                rw [if_pos ⟨hdue, by simp; omega⟩]
        · rw [if_neg hdue]
          rw [if_neg (by intro hc; exact hdue hc.1)]
    | none =>
        simp only [hlsu]
        cases hq : getSessionStatusUpdates sid (some 5) fs with
        | nil =>
            have hfil : fs.statusUpdates.filter
                (fun x => x.sessionId == sid) = [] := by
              simp only [getSessionStatusUpdates] at hq
              rw [if_neg (by norm_num)] at hq
              rw [← @sortDocs_eq_nil_iff _ statusUpdateQueryLe _]
              rcases List.take_eq_nil_iff.mp hq with h5 | hnil
              · exact absurd h5 (by norm_num)
              · exact hnil
            have hspec : specLatestUpdateTimestamp sid fs = none :=
              (specLatestUpdateTimestamp_eq_none_iff sid fs).mpr hfil
            simp only [hq, hspec, Option.getD_none]
            by_cases hdue : REMINDER_INTERVAL_MS ≤ now - sess.checkinTime
            · rw [if_pos hdue]
              cases hlrs : r.lastReminderSent with
              | none =>
                  simp only [hlrs, Bool.false_eq_true, if_false, hsend,
                    if_true]
                  rw [if_pos ⟨hdue, trivial⟩]
              | some rr =>
                  simp only [hlrs]
                  by_cases hthr : now - rr < REMINDER_INTERVAL_MS
                  · rw [if_pos (by simpa using hthr)]
                    rw [if_neg (by
                      intro hc
                      have := of_decide_eq_true hc.2
                      omega)]
                  · rw [if_neg (by simpa using hthr)]
                    simp only [hsend, if_true]
                    rw [if_pos ⟨hdue, by simp; omega⟩]
            · rw [if_neg hdue]
              rw [if_neg (by intro hc; exact hdue hc.1)]
        | cons u rest =>
            have hspec := head_getSessionStatusUpdates_ts sid fs 5 u rest hq
            simp only [hq, hspec, Option.getD_some]
            by_cases hdue : REMINDER_INTERVAL_MS ≤ now - u.timestamp
            · rw [if_pos hdue]
              cases hlrs : r.lastReminderSent with
              | none =>
                  simp only [hlrs, Bool.false_eq_true, if_false, hsend,
                    if_true]
                  rw [if_pos ⟨hdue, trivial⟩]
              | some rr =>
                  simp only [hlrs]
                  by_cases hthr : now - rr < REMINDER_INTERVAL_MS
                  · rw [if_pos (by simpa using hthr)]
                    rw [if_neg (by
                      intro hc
                      have := of_decide_eq_true hc.2
                      omega)]
                  · rw [if_neg (by simpa using hthr)]
                    simp only [hsend, if_true]
                    rw [if_pos ⟨hdue, by simp; omega⟩]
            · rw [if_neg hdue]
              rw [if_neg (by intro hc; exact hdue hc.1)]

/-- Data for the C6 witness: user u6 is checked in to session s6. -/
def c6Status : UserStatus :=
  { userId := "u6", username := "uma", status := .checkedIn,
    currentSessionId := some "s6", lastCheckin := some 0,
    lastCheckout := none, lastActivity := 0, timezone := some "UTC",
    currentSession := none }

/-- The session of the C6 witness, checked in at instant 0. -/
def c6Session : CheckinSession :=
  { sessionId := "s6", userId := "u6", username := "uma",
    date := "1970-01-01", checkinTime := 0, checkoutTime := none,
    status := .active, totalBreakTime := 0, totalWorkTime := none,
    notes := none, timezone := "UTC", createdAt := 0, updatedAt := 0,
    breakCount := 0, statusUpdateCount := 0, lastWorkStatus := none }

/-- The active reminder of the C6 witness. -/
def c6Rem : StatusReminder :=
  { userId := "u6", username := "uma", sessionId := "s6",
    reminderCount := 0, isActive := true, timezone := "UTC",
    lastReminderSent := none, lastStatusUpdate := none }

/-- Store for the C6 witness: no status updates yet. -/
def c6Store : Firestore :=
  { emptyFirestore "UTC" with userStatuses := [c6Status], sessions := [c6Session], reminders := [c6Rem] }

/-- Data for the C6 witness, skip branch: the same user checked out. -/
def c6OffStatus : UserStatus :=
  { userId := "u6", username := "uma", status := .checkedOut,
    currentSessionId := none, lastCheckin := some 0,
    lastCheckout := some 1, lastActivity := 1, timezone := some "UTC",
    currentSession := none }

/-- Store for the skip branch of the C6 witness. -/
def c6OffStore : Firestore :=
  { emptyFirestore "UTC" with userStatuses := [c6OffStatus], reminders := [c6Rem] }

/-- C6 witness: the checked-out user is skipped untouched, and the
checked-in user with no status update is reminded exactly 45 minutes
after check-in. -/
theorem C6_tick_skip_and_reference_witness :
    processReminder true 2700000 (c6OffStore, []) c6Rem = (c6OffStore, []) ∧
    (processReminder true 2700000 (c6Store, []) c6Rem).2 = ["u6"] := by
  refine ⟨C6_tick_skip_and_reference.1 true 2700000 c6Rem c6OffStore [] _
    rfl (by decide), ?_⟩
  have h := C6_tick_skip_and_reference.2 2700000 c6Rem c6Store [] c6Status
    "s6" c6Session rfl rfl rfl rfl
  rw [h]
  rfl

/-! ## Claim C5 -/

/-- database.ts `startStatusReminderService`: `setInterval` fires
`checkAndSendStatusReminders` every `CHECK_INTERVAL_MS`; `n` ticks
starting at instant `tick` are unrolled, recording for each tick the
instant and the users a reminder was delivered to. -/
def runReminderTicks (sendOk : Bool) :
    Int → Firestore → Nat → Firestore × List (Int × List String)
  | _, fs, 0 => (fs, [])
  | tick, fs, Nat.succ n =>
      let r := checkAndSendStatusReminders sendOk tick fs
      let rest := runReminderTicks sendOk (tick + CHECK_INTERVAL_MS) r.1 n
      (rest.1, (tick, r.2) :: rest.2)

theorem findUserStatus_setReminders (uid : String) (fs : Firestore)
    (l : List StatusReminder) :
    findUserStatus uid { fs with reminders := l } = findUserStatus uid fs :=
  rfl

theorem findSession_setReminders (sid : String) (fs : Firestore)
    (l : List StatusReminder) :
    findSession sid { fs with reminders := l } = findSession sid fs :=
  rfl

theorem reminders_addStatusUpdate (sid uid un stt : String) (now : Int)
    (fs : Firestore) :
    (addStatusUpdate sid uid un stt now fs).1.reminders = fs.reminders := by
  simp only [addStatusUpdate]
  split
  · rfl
  · simp only [addStatusUpdateProjUpdate]
    split
    · split
      · rfl
      · rfl
    · rfl

theorem checkAndSend_single_notdue (now T : Int) (fs : Firestore)
    (q : StatusReminder) (st : UserStatus) (sid : String)
    (sess : CheckinSession)
    (hrem : fs.reminders = [q]) (hact : q.isActive = true)
    (hlsu : q.lastStatusUpdate = some T)
    (hst : findUserStatus q.userId fs = some st)
    (hstat : st.status = .checkedIn)
    (hsid : st.currentSessionId = some sid)
    (hsess : findSession sid fs = some sess)
    (hdue : now - T < REMINDER_INTERVAL_MS) :
    checkAndSendStatusReminders true now fs = (fs, []) := by
  have hgucs := getUserCurrentState_resolved q.userId sid fs st sess hst
    hsid hsess
  simp only [checkAndSendStatusReminders, getActiveStatusReminders, hrem]
  rw [List.filter_cons_of_pos (by simpa using hact), List.filter_nil]
  simp only [List.foldl_cons, List.foldl_nil]
  simp only [processReminder, hgucs]
  rw [if_neg (by simp [hstat])]
  simp only [hlsu]
  rw [if_neg (by omega)]

theorem checkAndSend_single_throttled (now T p : Int) (fs : Firestore)
    (q : StatusReminder) (st : UserStatus) (sid : String)
    (sess : CheckinSession)
    (hrem : fs.reminders = [q]) (hact : q.isActive = true)
    (hlsu : q.lastStatusUpdate = some T)
    (hst : findUserStatus q.userId fs = some st)
    (hstat : st.status = .checkedIn)
    (hsid : st.currentSessionId = some sid)
    (hsess : findSession sid fs = some sess)
    (hdue : REMINDER_INTERVAL_MS ≤ now - T)
    (hlrs : q.lastReminderSent = some p)
    (hthr : now - p < REMINDER_INTERVAL_MS) :
    checkAndSendStatusReminders true now fs = (fs, []) := by
  have hgucs := getUserCurrentState_resolved q.userId sid fs st sess hst
    hsid hsess
  simp only [checkAndSendStatusReminders, getActiveStatusReminders, hrem]
  rw [List.filter_cons_of_pos (by simpa using hact), List.filter_nil]
  simp only [List.foldl_cons, List.foldl_nil]
  simp only [processReminder, hgucs]
  rw [if_neg (by simp [hstat])]
  simp only [hlsu]
  rw [if_pos hdue]
  simp only [hlrs]
  rw [if_pos (by simpa using hthr)]

theorem checkAndSend_single_send (now T : Int) (fs : Firestore)
    (q : StatusReminder) (st : UserStatus) (sid : String)
    (sess : CheckinSession)
    (hrem : fs.reminders = [q]) (hact : q.isActive = true)
    (hlsu : q.lastStatusUpdate = some T)
    (hst : findUserStatus q.userId fs = some st)
    (hstat : st.status = .checkedIn)
    (hsid : st.currentSessionId = some sid)
    (hsess : findSession sid fs = some sess)
    (hdue : REMINDER_INTERVAL_MS ≤ now - T)
    (hthr : ∀ p, q.lastReminderSent = some p → REMINDER_INTERVAL_MS ≤ now - p) :
    checkAndSendStatusReminders true now fs =
      ({ fs with reminders := [{ q with reminderCount := q.reminderCount + 1, lastReminderSent := some now }] }, [q.userId]) := by
  have hgucs := getUserCurrentState_resolved q.userId sid fs st sess hst
    hsid hsess
  have hfr : findReminder q.userId fs = some q := by
    unfold findReminder
    rw [hrem]
    simp
  simp only [checkAndSendStatusReminders, getActiveStatusReminders, hrem]
  rw [List.filter_cons_of_pos (by simpa using hact), List.filter_nil]
  simp only [List.foldl_cons, List.foldl_nil]
  simp only [processReminder, hgucs]
  rw [if_neg (by simp [hstat])]
  simp only [hlsu]
  rw [if_pos hdue]
  have hthrF : (match q.lastReminderSent with
      | some r => decide (now - r < REMINDER_INTERVAL_MS)
      | none => false) = false := by
    cases hlrs : q.lastReminderSent with
    | none => rfl
    | some p =>
        have := hthr p hlrs
        simp only [decide_eq_false_iff_not, not_lt]
        omega
  rw [hthrF]
  simp only [Bool.false_eq_true, if_false]
  simp only [sendStatusReminder, hgucs]
  rw [if_neg (by simp [hstat])]
  simp only [if_true, getStatusReminder, hfr, updateStatusReminder,
    putReminderDoc, orKeep, Option.getD_some, Option.getD_none, hrem,
    List.filter_cons, bne_self_eq_false, Bool.false_eq_true, if_false,
    List.filter_nil, List.nil_append]
  rw [hlsu]

theorem range_map_succ (f : Nat → α) (n : Nat) :
    (List.range (n + 1)).map f = f 0 :: (List.range n).map (fun i => f (i + 1)) := by
  rw [List.range_succ_eq_map, List.map_cons, List.map_map]
  rfl

/-- Unrolling the poll loop over a single-reminder store whose reference
instant is the reminder's own `lastStatusUpdate = T`: as long as every
tick stays below the horizon `T + 90min`, a tick delivers exactly when
its instant falls in `[T + 45min, T + 50min)`.  The disjunctive
hypothesis distinguishes the phase before the delivery (no reminder ever
sent after `T`, next tick below `T + 50min`) from the phase after it
(a reminder went out at or after `T + 45min`, ticks now at or beyond
`T + 50min`). -/
theorem runTicks_single (T : Int) (st : UserStatus) (sid : String)
    (sess : CheckinSession) :
    ∀ (n : Nat) (t0 : Int) (fs : Firestore) (q : StatusReminder),
    fs.reminders = [q] → q.isActive = true →
    q.lastStatusUpdate = some T →
    findUserStatus q.userId fs = some st → st.status = .checkedIn →
    st.currentSessionId = some sid → findSession sid fs = some sess →
    (∀ i : Nat, i < n →
      t0 + (i : Int) * CHECK_INTERVAL_MS < T + 2 * REMINDER_INTERVAL_MS) →
    ((∀ p, q.lastReminderSent = some p → p ≤ T) ∧
        t0 < T + REMINDER_INTERVAL_MS + CHECK_INTERVAL_MS ∨
      (∃ s, q.lastReminderSent = some s ∧ T + REMINDER_INTERVAL_MS ≤ s) ∧
        T + REMINDER_INTERVAL_MS + CHECK_INTERVAL_MS ≤ t0) →
    (runReminderTicks true t0 fs n).2 =
      (List.range n).map (fun (i : Nat) =>
        (t0 + (i : Int) * CHECK_INTERVAL_MS,
         if T + REMINDER_INTERVAL_MS ≤ t0 + (i : Int) * CHECK_INTERVAL_MS ∧
            t0 + (i : Int) * CHECK_INTERVAL_MS <
              T + REMINDER_INTERVAL_MS + CHECK_INTERVAL_MS
         then [q.userId] else [])) := by
  intro n
  induction n with
  | zero =>
      intro t0 fs q _ _ _ _ _ _ _ _ _
      rfl
  | succ n ih =>
      intro t0 fs q hrem hact hlsu hst hstat hsid hsess hwin hphase
      have hwin0 : t0 < T + 2 * REMINDER_INTERVAL_MS := by
        have := hwin 0 (Nat.succ_pos n)
        simpa using this
      have hwinS : ∀ i : Nat, i < n →
          (t0 + CHECK_INTERVAL_MS) + (i : Int) * CHECK_INTERVAL_MS <
            T + 2 * REMINDER_INTERVAL_MS := by
        intro i hi
        have := hwin (i + 1) (by omega)
        push_cast at this ⊢
        simp only [CHECK_INTERVAL_MS, REMINDER_INTERVAL_MS] at this ⊢
        omega
      rw [range_map_succ]
      simp only [runReminderTicks]
      rcases hphase with ⟨hpast, hnext⟩ | ⟨⟨s, hlrs, hs⟩, hfar⟩
      · by_cases hdue : REMINDER_INTERVAL_MS ≤ t0 - T
        · have hsendEq := checkAndSend_single_send t0 T fs q st sid sess
            hrem hact hlsu hst hstat hsid hsess hdue
            (fun p hp => by have := hpast p hp; omega)
          rw [hsendEq]
          congr 1
          · simp only [Nat.cast_zero, zero_mul, add_zero]
            rw [if_pos ⟨by omega, hnext⟩]
          · have htail := ih (t0 + CHECK_INTERVAL_MS)
              { fs with reminders := [{ q with reminderCount := q.reminderCount + 1, lastReminderSent := some t0 }] }
              { q with reminderCount := q.reminderCount + 1, lastReminderSent := some t0 }
              rfl hact hlsu hst hstat hsid hsess hwinS
              (Or.inr ⟨⟨t0, rfl, by omega⟩, by
                have : CHECK_INTERVAL_MS = 5 * 60 * 1000 := rfl
                omega⟩)
            rw [htail]
            refine List.map_congr_left fun i _ => ?_
            have harith : t0 + ((i : Int) + 1) * CHECK_INTERVAL_MS
                = t0 + CHECK_INTERVAL_MS + (i : Int) * CHECK_INTERVAL_MS := by
              ring
            push_cast
            rw [harith]
        · have hskip := checkAndSend_single_notdue t0 T fs q st sid sess
            hrem hact hlsu hst hstat hsid hsess (by omega)
          rw [hskip]
          congr 1
          · simp only [Nat.cast_zero, zero_mul, add_zero]
            rw [if_neg (fun hc => hdue (by omega))]
          · have htail := ih (t0 + CHECK_INTERVAL_MS) fs q
              hrem hact hlsu hst hstat hsid hsess hwinS
              (Or.inl ⟨hpast, by
                have : CHECK_INTERVAL_MS = 5 * 60 * 1000 := rfl
                have : REMINDER_INTERVAL_MS = 45 * 60 * 1000 := rfl
                omega⟩)
            rw [htail]
            refine List.map_congr_left fun i _ => ?_
            have harith : t0 + ((i : Int) + 1) * CHECK_INTERVAL_MS
                = t0 + CHECK_INTERVAL_MS + (i : Int) * CHECK_INTERVAL_MS := by
              ring
            push_cast
            rw [harith]
      · have hskip := checkAndSend_single_throttled t0 T s fs q st sid sess
          hrem hact hlsu hst hstat hsid hsess (by
            have hc : CHECK_INTERVAL_MS = 5 * 60 * 1000 := rfl
            have hr : REMINDER_INTERVAL_MS = 45 * 60 * 1000 := rfl
            omega) hlrs (by omega)
        rw [hskip]
        congr 1
        · simp only [Nat.cast_zero, zero_mul, add_zero]
          rw [if_neg (fun hc => absurd hc.2 (by omega))]
        · have htail := ih (t0 + CHECK_INTERVAL_MS) fs q
            hrem hact hlsu hst hstat hsid hsess hwinS
            (Or.inr ⟨⟨s, hlrs, hs⟩, by
              have hc : CHECK_INTERVAL_MS = 5 * 60 * 1000 := rfl
              omega⟩)
          rw [htail]
          refine List.map_congr_left fun i _ => ?_
          have harith : t0 + ((i : Int) + 1) * CHECK_INTERVAL_MS
              = t0 + CHECK_INTERVAL_MS + (i : Int) * CHECK_INTERVAL_MS := by
            ring
          push_cast
          rw [harith]

/-- C5: over a store holding one active reminder for a checked-in user
with a resolvable session and reference instant `T` (the reminder's
`lastStatusUpdate`), with no reminder ever delivered after `T`, a poll
service started at `t0 ≤ T + 45min` whose ticks stay below `T + 90min`
delivers nothing at ticks before `T + 45min` and delivers to the user at
exactly the one tick falling in `[T + 45min, T + 50min)` — hence exactly
one delivery in `[T + 45min, T + 90min)`; and a successful
`addStatusUpdateWithReminderUpdate` at instant `now` rewrites the active
reminder's `lastStatusUpdate` to `now`, restarting the 45-minute window
at the update's own timestamp. -/
theorem C5_reminder_schedule :
    (∀ (T t0 : Int) (n : Nat) (fs : Firestore) (q : StatusReminder)
       (st : UserStatus) (sid : String) (sess : CheckinSession),
      fs.reminders = [q] → q.isActive = true →
      q.lastStatusUpdate = some T →
      findUserStatus q.userId fs = some st → st.status = .checkedIn →
      st.currentSessionId = some sid → findSession sid fs = some sess →
      (∀ p, q.lastReminderSent = some p → p ≤ T) →
      t0 ≤ T + REMINDER_INTERVAL_MS →
      (∀ i : Nat, i < n →
        t0 + (i : Int) * CHECK_INTERVAL_MS < T + 2 * REMINDER_INTERVAL_MS) →
      (runReminderTicks true t0 fs n).2 =
        (List.range n).map (fun (i : Nat) =>
          (t0 + (i : Int) * CHECK_INTERVAL_MS,
           if T + REMINDER_INTERVAL_MS ≤ t0 + (i : Int) * CHECK_INTERVAL_MS ∧
              t0 + (i : Int) * CHECK_INTERVAL_MS <
                T + REMINDER_INTERVAL_MS + CHECK_INTERVAL_MS
           then [q.userId] else []))) ∧
    (∀ (sid uid un stt : String) (now : Int) (fs : Firestore)
       (rem : StatusReminder) (su : StatusUpdate),
      findReminder uid fs = some rem → rem.isActive = true →
      (addStatusUpdateWithReminderUpdate sid uid un stt now fs).2 = .ok su →
      findReminder uid
          (addStatusUpdateWithReminderUpdate sid uid un stt now fs).1 =
        some { rem with lastStatusUpdate := some now }) := by
  constructor
  · intro T t0 n fs q st sid sess hrem hact hlsu hst hstat hsid hsess
      hpast hstart hwin
    exact runTicks_single T st sid sess n t0 fs q hrem hact hlsu hst hstat
      hsid hsess hwin
      (Or.inl ⟨hpast, by
        have hc : CHECK_INTERVAL_MS = 5 * 60 * 1000 := rfl
        omega⟩)
  · intro sid uid un stt now fs rem su hrem hact hok
    have hfr1 : findReminder uid (addStatusUpdate sid uid un stt now fs).1 =
        some rem := by
      unfold findReminder
      rw [reminders_addStatusUpdate]
      exact hrem
    have huid : rem.userId = uid := by
      have h1 := List.find?_some
        (show (fs.reminders.find? fun d => d.userId == uid) = some rem
          from hrem)
      simpa using h1
    cases hr2 : (addStatusUpdate sid uid un stt now fs).2 with
    | error e =>
        exfalso
        simp only [addStatusUpdateWithReminderUpdate, hr2] at hok
        exact absurd hok (by simp)
    | ok su2 =>
        simp only [addStatusUpdateWithReminderUpdate, hr2,
          getStatusReminder, hfr1, hact, if_true]
        simp only [updateStatusReminder, hfr1]
        rw [findReminder_putReminderDoc]
        rw [if_pos (show (StatusReminder.userId { rem with reminderCount := (none : Option Int).getD rem.reminderCount, isActive := (none : Option Bool).getD rem.isActive, lastReminderSent := orKeep none rem.lastReminderSent, lastStatusUpdate := orKeep (some now) rem.lastStatusUpdate }) = uid from huid)]
        simp only [Option.getD_none, orKeep]
        rw [hact]

/-- Data for the C5 witness: user u5 checked in to session s5 at
instant 0. -/
def c5Status : UserStatus :=
  { userId := "u5", username := "ursa", status := .checkedIn,
    currentSessionId := some "s5", lastCheckin := some 0,
    lastCheckout := none, lastActivity := 0, timezone := some "UTC",
    currentSession := none }

/-- The session of the C5 witness. -/
def c5Session : CheckinSession :=
  { sessionId := "s5", userId := "u5", username := "ursa",
    date := "1970-01-01", checkinTime := 0, checkoutTime := none,
    status := .active, totalBreakTime := 0, totalWorkTime := none,
    notes := none, timezone := "UTC", createdAt := 0, updatedAt := 0,
    breakCount := 0, statusUpdateCount := 0, lastWorkStatus := none }

/-- The active reminder of the C5 witness, reference instant 0. -/
def c5Rem : StatusReminder :=
  { userId := "u5", username := "ursa", sessionId := "s5",
    reminderCount := 0, isActive := true, timezone := "UTC",
    lastReminderSent := none, lastStatusUpdate := some 0 }

/-- Store for the C5 witness. -/
def c5Store : Firestore :=
  { emptyFirestore "UTC" with userStatuses := [c5Status], sessions := [c5Session], reminders := [c5Rem] }

/-- C5 witness: eighteen 5-minute ticks starting at instant 0 with
reference instant 0 deliver exactly once, at the 45-minute tick; and
posting a status update at instant 1000 rewrites the reminder's
reference instant to 1000. -/
theorem C5_reminder_schedule_witness :
    (runReminderTicks true 0 c5Store 18).2 =
      [(0, []), (300000, []), (600000, []), (900000, []), (1200000, []),
       (1500000, []), (1800000, []), (2100000, []), (2400000, []),
       (2700000, ["u5"]), (3000000, []), (3300000, []), (3600000, []),
       (3900000, []), (4200000, []), (4500000, []), (4800000, []),
       (5100000, [])] ∧
    findReminder "u5"
        (addStatusUpdateWithReminderUpdate "s5" "u5" "ursa" "coding" 1000
          c5Store).1 =
      some { c5Rem with lastStatusUpdate := some 1000 } := by
  constructor
  · have h := C5_reminder_schedule.1 0 0 18 c5Store c5Rem c5Status "s5"
      c5Session rfl rfl rfl rfl rfl rfl rfl
      (fun p hp => by simp only [c5Rem] at hp; exact absurd hp (by simp))
      (by decide) (by decide)
    rw [h]
    decide
  · exact C5_reminder_schedule.2 "s5" "u5" "ursa" "coding" 1000 c5Store
      c5Rem
      { updateId := "status_1000", sessionId := "s5", userId := "u5",
        username := "ursa", status := "coding", timestamp := 1000,
        previousStatus := none }
      rfl rfl rfl

/-! ## Claim C4 -/

theorem statusUpdates_putSessionDoc (d : CheckinSession) (fs : Firestore) :
    (putSessionDoc d fs).statusUpdates = fs.statusUpdates :=
  rfl

theorem statusUpdates_addStatusUpdateProjUpdate (uid stt : String)
    (now : Int) (fs : Firestore) :
    (addStatusUpdateProjUpdate uid stt now fs).statusUpdates =
      fs.statusUpdates := by
  simp only [addStatusUpdateProjUpdate]
  split
  · split
    · rfl
    · rfl
  · rfl

theorem insertSorted_head {le : α → α → Bool} {a : α} {l : List α}
    (h : ∀ b ∈ l, le a b = true) : insertSorted le a l = a :: l := by
  cases l with
  | nil => rfl
  | cons b l =>
      rw [insertSorted, if_pos (h b (List.mem_cons_self b l))]

theorem statusUpdates_addStatusUpdate (sid uid un stt : String) (now : Int)
    (fs : Firestore) (sess : CheckinSession)
    (hsess : findSession sid fs = some sess) :
    (addStatusUpdate sid uid un stt now fs).1.statusUpdates =
      { updateId := generateStatusUpdateId now, sessionId := sid,
        userId := uid, username := un, status := stt, timestamp := now,
        previousStatus :=
          (getLatestStatusUpdate sid fs).map (fun u => u.status) } ::
        fs.statusUpdates.filter
          (fun x => !(x.sessionId == sid && x.updateId == generateStatusUpdateId now)) := by
  simp only [addStatusUpdate, findSession_putStatusUpdateDoc, hsess,
    statusUpdates_addStatusUpdateProjUpdate, statusUpdates_putSessionDoc]
  rfl

/-- C4 (amended): `addStatusUpdate` stamps the new update's
`previousStatus` with the `status` of the newest stored update of the
session at call time (the head of the timestamp-descending query), and
leaves it absent when the session has none; when the call instant is
strictly later than every stored update of the session — in particular
whenever update instants within a session are strictly increasing, the
regime in which the spec's ordering claim applies — and every stored
update of the session is keyed by the generator applied to its own
timestamp (true of every document the code writes), the written document
has a fresh identifier and the query afterwards returns it first,
followed by the untouched previous updates, so adjacent updates in
timestamp order are linked by `previousStatus`.  (Two updates in the
same millisecond share one document id and overwrite instead.) -/
theorem C4_statusUpdate_linkage :
    ∀ (sid uid un stt : String) (now : Int) (fs : Firestore)
      (sess : CheckinSession) (su : StatusUpdate),
      findSession sid fs = some sess →
      (addStatusUpdate sid uid un stt now fs).2 = .ok su →
      su.previousStatus =
        ((getSessionStatusUpdates sid (some 1) fs).head?).map
          (fun u => u.status) ∧
      su.timestamp = now ∧
      ((∀ u ∈ fs.statusUpdates, u.sessionId = sid →
          u.updateId = generateStatusUpdateId u.timestamp ∧
            u.timestamp < now) →
       getSessionStatusUpdates sid none
           (addStatusUpdate sid uid un stt now fs).1 =
         su :: getSessionStatusUpdates sid none fs) := by
  intro sid uid un stt now fs sess su hsess hok
  simp only [addStatusUpdate, findSession_putStatusUpdateDoc, hsess,
    Except.ok.injEq] at hok
  subst hok
  refine ⟨rfl, rfl, fun hts => ?_⟩
  have hinner : fs.statusUpdates.filter
      (fun x => !(x.sessionId == sid && x.updateId == generateStatusUpdateId now)) =
      fs.statusUpdates := by
    rw [List.filter_eq_self]
    intro a ha
    by_cases hc : a.sessionId = sid
    · obtain ⟨hidg, hlt⟩ := hts a ha hc
      have hne : a.updateId ≠ generateStatusUpdateId now := by
        rw [hidg]
        intro h
        have := generateStatusUpdateId_inj h
        omega
      simp [hne]
    · simp [hc]
  simp only [getSessionStatusUpdates]
  rw [statusUpdates_addStatusUpdate sid uid un stt now fs sess hsess, hinner]
  rw [List.filter_cons_of_pos (by simp)]
  rw [sortDocs]
  apply insertSorted_head
  intro b hb
  rw [mem_sortDocs] at hb
  have hbmem := List.mem_filter.mp hb
  have hbts := (hts b hbmem.1 (by simpa using hbmem.2)).2
  simp only [statusUpdateQueryLe, Bool.or_eq_true, decide_eq_true_eq]
  exact Or.inl hbts

/-- Spec-modelled reading of claim C4's invariant: within a session the
stored updates, read oldest first, are strictly increasing in
timestamp, the first carries no `previousStatus`, and each later one's
`previousStatus` equals its predecessor's `status`. -/
def chainB (p : α → α → Bool) : List α → Bool
  | [] => true
  | [_] => true
  | a :: b :: l => p a b && chainB p (b :: l)

def specStatusLinkage (sid : String) (fs : Firestore) : Bool :=
  let l := (getSessionStatusUpdates sid none fs).reverse
  (match l.head? with
   | some u => u.previousStatus == none
   | none => true) &&
    chainB (fun a b => decide (a.timestamp < b.timestamp) &&
      (b.previousStatus == some a.status)) l

/-- The session of the C4 data. -/
def c4Session : CheckinSession :=
  { sessionId := "s4", userId := "u4", username := "ub",
    date := "1970-01-01", checkinTime := 0, checkoutTime := none,
    status := .active, totalBreakTime := 0, totalWorkTime := none,
    notes := none, timezone := "UTC", createdAt := 0, updatedAt := 0,
    breakCount := 0, statusUpdateCount := 0, lastWorkStatus := none }

/-- The first status update of the C4 data ("A" at instant 1000). -/
def c4Upd1 : StatusUpdate :=
  { updateId := "status_1000", sessionId := "s4", userId := "u4",
    username := "ub", status := "A", timestamp := 1000,
    previousStatus := none }

/-- Store for the C4 data: one session with one recorded update. -/
def c4Store : Firestore :=
  { emptyFirestore "UTC" with sessions := [c4Session], statusUpdates := [c4Upd1] }

/-- The update `addStatusUpdate` writes in the C4 witness ("B" at
instant 2000). -/
def c4Upd2 : StatusUpdate :=
  { updateId := "status_2000", sessionId := "s4", userId := "u4",
    username := "ub", status := "B", timestamp := 2000,
    previousStatus := some "A" }

/-- The store after posting "B" at instant 2000 to the C4 store. -/
def c4Store2 : Firestore :=
  (addStatusUpdate "s4" "u4" "ub" "B" 2000 c4Store).1

/-- The store after then posting "C", also at instant 2000: the second
write of document `status_2000` overwrites the first. -/
def c4Store3 : Firestore :=
  (addStatusUpdate "s4" "u4" "ub" "C" 2000 c4Store2).1

/-- Counterexample to C4 as stated: posting "A" at 1000 ms, "B" at
2000 ms and "C" again at 2000 ms leaves the session with two stored
updates; in timestamp order the second is the update "C" whose
`previousStatus` is "B" — the status of an update that no longer exists
in the collection — not "A", the status of its stored predecessor, so
the spec's linkage invariant fails. -/
theorem C4_counterexample :
    getSessionStatusUpdates "s4" none c4Store3 =
      [{ updateId := "status_2000", sessionId := "s4", userId := "u4",
         username := "ub", status := "C", timestamp := 2000,
         previousStatus := some "B" }, c4Upd1] ∧
    specStatusLinkage "s4" c4Store3 = false := by
  constructor
  · rfl
  · rfl

/-- C4 witness: posting "B" at instant 2000 over the single stored
update "A" at instant 1000 links `previousStatus = "A"` and prepends the
new document to the query. -/
theorem C4_statusUpdate_linkage_witness :
    getSessionStatusUpdates "s4" none
        (addStatusUpdate "s4" "u4" "ub" "B" 2000 c4Store).1 =
      [c4Upd2, c4Upd1] ∧
    c4Upd2.previousStatus = some "A" ∧ c4Upd2.timestamp = 2000 := by
  have h := (C4_statusUpdate_linkage "s4" "u4" "ub" "B" 2000 c4Store
    c4Session c4Upd2 rfl rfl).2.2 (by decide)
  refine ⟨?_, rfl, rfl⟩
  rw [h]
  rfl

/-! ## Claim C2 -/

/-- The reachable-store invariant backing claim C2: session keys are
unique, every session is keyed by the id generator applied to its own
owner and check-in instant, every `user_status` pointer is a generated
id of its own user, and every active session's owner is checked-in or
on-break with `currentSessionId` pointing at that session. -/
structure CheckinInvariant (fs : Firestore) : Prop where
  keys : fs.sessions.Pairwise (fun a b => a.sessionId ≠ b.sessionId)
  wellKeyed : ∀ s ∈ fs.sessions,
    s.sessionId = generateSessionId s.userId s.checkinTime
  pointers : ∀ st ∈ fs.userStatuses, ∀ sid,
    st.currentSessionId = some sid → ∃ t, sid = generateSessionId st.userId t
  owned : ∀ s ∈ fs.sessions, s.status = .active →
    ∃ st, findUserStatus s.userId fs = some st ∧
      (st.status = .checkedIn ∨ st.status = .onBreak) ∧
      st.currentSessionId = some s.sessionId

theorem eq_of_pairwise_key {l : List α} {f : α → β}
    (hp : l.Pairwise (fun a b => f a ≠ f b)) {a b : α}
    (ha : a ∈ l) (hb : b ∈ l) (hf : f a = f b) : a = b := by
  induction l with
  | nil => cases ha
  | cons c l ih =>
      rcases List.mem_cons.mp ha with rfl | ha' <;>
        rcases List.mem_cons.mp hb with rfl | hb'
      · rfl
      · exact absurd hf ((List.pairwise_cons.mp hp).1 b hb')
      · exact absurd hf.symm ((List.pairwise_cons.mp hp).1 a ha')
      · exact ih (List.pairwise_cons.mp hp).2 ha' hb'

theorem applyUserStatusPatch_userId (old : Option UserStatus) (uid : String)
    (p : UserStatusPatch) (now : Int) (hpid : p.userId = none)
    (hold : ∀ o, old = some o → o.userId = uid) :
    (applyUserStatusPatch old uid p now).userId = uid := by
  cases old with
  | none => simp [applyUserStatusPatch, hpid]
  | some o => simp [applyUserStatusPatch, hpid, hold o rfl]

theorem applyUserStatusPatch_ptr (old : Option UserStatus) (uid : String)
    (p : UserStatusPatch) (now : Int) (hpp : p.currentSessionId = none) :
    (applyUserStatusPatch old uid p now).currentSessionId =
      match old with
      | some o => o.currentSessionId
      | none => none := by
  cases old with
  | none => simp [applyUserStatusPatch, hpp, orKeep]
  | some o => simp [applyUserStatusPatch, hpp, orKeep]

theorem applyUserStatusPatch_status (old : Option UserStatus) (uid : String)
    (p : UserStatusPatch) (now : Int) :
    (applyUserStatusPatch old uid p now).status =
      p.status.getD (match old with
        | some o => o.status
        | none => .checkedOut) := by
  cases old with
  | none => simp [applyUserStatusPatch]
  | some o => simp [applyUserStatusPatch]

theorem keys_putSessionDoc (d : CheckinSession) (fs : Firestore)
    (h : fs.sessions.Pairwise (fun a b => a.sessionId ≠ b.sessionId)) :
    (putSessionDoc d fs).sessions.Pairwise
      (fun a b => a.sessionId ≠ b.sessionId) := by
  unfold putSessionDoc
  refine List.pairwise_cons.mpr ⟨?_, ?_⟩
  · intro b hb
    have := (List.mem_filter.mp hb).2
    simp only [bne_iff_ne, ne_eq, decide_eq_true_eq] at this
    exact fun hc => this (hc ▸ rfl)
  · exact h.sublist (List.filter_sublist _)

/-- The invariant survives rewriting a session document that keeps its
key, owner, check-in time and status (the `update()`s of `startBreak`,
`endBreak` and `addStatusUpdate`). -/
theorem invariant_putSessionDoc_rewrite (d session : CheckinSession)
    (sid : String) (fs : Firestore) (hInv : CheckinInvariant fs)
    (hfind : findSession sid fs = some session)
    (hkey : d.sessionId = session.sessionId)
    (huser : d.userId = session.userId)
    (hct : d.checkinTime = session.checkinTime)
    (hstat : d.status = session.status) :
    CheckinInvariant (putSessionDoc d fs) := by
  have hmem : session ∈ fs.sessions := List.mem_of_find?_eq_some hfind
  refine ⟨keys_putSessionDoc d fs hInv.keys, ?_, hInv.pointers, ?_⟩
  · intro s hs
    rcases List.mem_cons.mp hs with rfl | hs'
    · rw [hkey, huser, hct]
      exact hInv.wellKeyed session hmem
    · exact hInv.wellKeyed s (List.mem_of_mem_filter hs')
  · intro s hs hact
    rcases List.mem_cons.mp hs with rfl | hs'
    · obtain ⟨st, hf, hset, hp⟩ :=
        hInv.owned session hmem (hstat ▸ hact)
      exact ⟨st, by rw [huser]; exact hf, hset, by rw [hkey]; exact hp⟩
    · exact hInv.owned s (List.mem_of_mem_filter hs') hact

/-- The invariant survives a user-status merge whose patch names no
user, no pointer, and no status outside checked-in/on-break (the
projection updates of breaks and status updates). -/
theorem invariant_updateUserStatus_keep (uid : String) (p : UserStatusPatch)
    (now : Int) (fs : Firestore) (hInv : CheckinInvariant fs)
    (hpid : p.userId = none) (hpp : p.currentSessionId = none)
    (hpstat : p.status = none ∨ p.status = some .checkedIn ∨
      p.status = some .onBreak) :
    CheckinInvariant (updateUserStatus uid p now fs) := by
  have huid : (applyUserStatusPatch (findUserStatus uid fs) uid p now).userId
      = uid :=
    applyUserStatusPatch_userId _ uid p now hpid
      (fun o ho => userId_of_findUserStatus ho)
  refine ⟨hInv.keys, hInv.wellKeyed, ?_, ?_⟩
  · intro st hst sid hptr
    rcases List.mem_cons.mp hst with rfl | hst'
    · rw [applyUserStatusPatch_ptr _ uid p now hpp] at hptr
      cases hf : findUserStatus uid fs with
      | none => rw [hf] at hptr; cases hptr
      | some o =>
          rw [hf] at hptr
          obtain ⟨t, ht⟩ := hInv.pointers o
            (List.mem_of_find?_eq_some hf) sid hptr
          have huid2 : (applyUserStatusPatch (some o) uid p now).userId = uid :=
            applyUserStatusPatch_userId _ uid p now hpid
              (fun o2 ho2 => by cases ho2; exact userId_of_findUserStatus hf)
          exact ⟨t, by rw [huid2, ← userId_of_findUserStatus hf]; exact ht⟩
    · exact hInv.pointers st (List.mem_of_mem_filter hst') sid hptr
  · intro s hs hact
    obtain ⟨st, hf, hset, hp⟩ := hInv.owned s hs hact
    by_cases hu : s.userId = uid
    · refine ⟨applyUserStatusPatch (findUserStatus uid fs) uid p now, ?_, ?_, ?_⟩
      · rw [show updateUserStatus uid p now fs =
            putUserStatusDoc (applyUserStatusPatch (findUserStatus uid fs)
              uid p now) fs from rfl]
        rw [findUserStatus_putUserStatusDoc]
        rw [if_pos (huid.trans hu.symm)]
      · rw [applyUserStatusPatch_status]
        rcases hpstat with h0 | h0 | h0 <;> rw [h0]
        · rw [Option.getD_none]
          rw [hu] at hf
          rw [hf]
          exact hset
        · exact Or.inl rfl
        · exact Or.inr rfl
      · rw [applyUserStatusPatch_ptr _ uid p now hpp]
        rw [hu] at hf
        rw [hf]
        exact hp
    · refine ⟨st, ?_, hset, hp⟩
      rw [show updateUserStatus uid p now fs =
          putUserStatusDoc (applyUserStatusPatch (findUserStatus uid fs)
            uid p now) fs from rfl]
      rw [findUserStatus_putUserStatusDoc]
      rw [if_neg (fun hc => hu ((huid ▸ hc : uid = s.userId)).symm)]
      exact hf

theorem invariant_transfer (g fs : Firestore) (hs : g.sessions = fs.sessions)
    (hu : g.userStatuses = fs.userStatuses) (hInv : CheckinInvariant fs) :
    CheckinInvariant g := by
  refine ⟨?_, ?_, ?_, ?_⟩
  · rw [hs]
    exact hInv.keys
  · intro s hsm
    rw [hs] at hsm
    exact hInv.wellKeyed s hsm
  · intro st hst sid hp
    rw [hu] at hst
    exact hInv.pointers st hst sid hp
  · intro s hsm hact
    rw [hs] at hsm
    obtain ⟨st, hf, h1, h2⟩ := hInv.owned s hsm hact
    refine ⟨st, ?_, h1, h2⟩
    unfold findUserStatus
    rw [hu]
    exact hf

theorem invariant_createShape (d : CheckinSession) (st' : UserStatus)
    (fs : Firestore) (hInv : CheckinInvariant fs)
    (huser : st'.userId = d.userId)
    (hstat : st'.status = .checkedIn)
    (hptr : st'.currentSessionId = some d.sessionId)
    (hwk : d.sessionId = generateSessionId d.userId d.checkinTime)
    (hnone : ∀ s ∈ fs.sessions, s.status = .active → s.userId ≠ d.userId) :
    CheckinInvariant (putUserStatusDoc st' (putSessionDoc d fs)) := by
  refine ⟨keys_putSessionDoc d fs hInv.keys, ?_, ?_, ?_⟩
  · intro s hs
    rcases List.mem_cons.mp hs with rfl | hs'
    · exact hwk
    · exact hInv.wellKeyed s (List.mem_of_mem_filter hs')
  · intro st hst sid hsid
    rcases List.mem_cons.mp hst with rfl | hst'
    · rw [hptr] at hsid
      cases hsid
      exact ⟨d.checkinTime, by rw [huser]; exact hwk⟩
    · exact hInv.pointers st (List.mem_of_mem_filter hst') sid hsid
  · intro s hs hact
    rcases List.mem_cons.mp hs with rfl | hs'
    · refine ⟨st', ?_, Or.inl hstat, hptr⟩
      rw [findUserStatus_putUserStatusDoc, if_pos huser]
    · have hsf := List.mem_of_mem_filter hs'
      have hne := hnone s hsf hact
      obtain ⟨st, hf, hset, hp⟩ := hInv.owned s hsf hact
      refine ⟨st, ?_, hset, hp⟩
      rw [findUserStatus_putUserStatusDoc,
        if_neg (fun hc => hne (by rw [← hc, huser]))]
      exact hf

theorem invariant_createCheckinSession (u un : String) (notes : Option String)
    (now : Int) (fs : Firestore) (hInv : CheckinInvariant fs)
    (hnone : ∀ s ∈ fs.sessions, s.status = .active → s.userId ≠ u) :
    CheckinInvariant (createCheckinSession u un notes now fs).1 := by
  refine invariant_createShape _ _ fs hInv ?_ ?_ ?_ ?_ ?_
  · rfl
  · rfl
  · rfl
  · rfl
  · exact hnone

theorem invariant_putSessionDoc_completed (d session : CheckinSession)
    (sid : String) (fs : Firestore) (hInv : CheckinInvariant fs)
    (hfind : findSession sid fs = some session)
    (hkey : d.sessionId = session.sessionId)
    (huser : d.userId = session.userId)
    (hct : d.checkinTime = session.checkinTime)
    (hstat : d.status = .completed) :
    CheckinInvariant (putSessionDoc d fs) := by
  have hmem : session ∈ fs.sessions := List.mem_of_find?_eq_some hfind
  refine ⟨keys_putSessionDoc d fs hInv.keys, ?_, hInv.pointers, ?_⟩
  · intro s hs
    rcases List.mem_cons.mp hs with rfl | hs'
    · rw [hkey, huser, hct]
      exact hInv.wellKeyed session hmem
    · exact hInv.wellKeyed s (List.mem_of_mem_filter hs')
  · intro s hs hact
    rcases List.mem_cons.mp hs with rfl | hs'
    · rw [hstat] at hact
      cases hact
    · exact hInv.owned s (List.mem_of_mem_filter hs') hact

theorem invariant_updateUserStatus_checkout (uid : String)
    (p : UserStatusPatch) (now : Int) (fs : Firestore)
    (hInv : CheckinInvariant fs)
    (hpid : p.userId = none) (hpp : p.currentSessionId = none)
    (hnoactive : ∀ s ∈ fs.sessions, s.status = .active → s.userId ≠ uid) :
    CheckinInvariant (updateUserStatus uid p now fs) := by
  have huid : (applyUserStatusPatch (findUserStatus uid fs) uid p now).userId
      = uid :=
    applyUserStatusPatch_userId _ uid p now hpid
      (fun o ho => userId_of_findUserStatus ho)
  refine ⟨hInv.keys, hInv.wellKeyed, ?_, ?_⟩
  · intro st hst sid hptr
    rcases List.mem_cons.mp hst with rfl | hst'
    · rw [applyUserStatusPatch_ptr _ uid p now hpp] at hptr
      cases hf : findUserStatus uid fs with
      | none => rw [hf] at hptr; cases hptr
      | some o =>
          rw [hf] at hptr
          obtain ⟨t, ht⟩ := hInv.pointers o
            (List.mem_of_find?_eq_some hf) sid hptr
          have huid2 : (applyUserStatusPatch (some o) uid p now).userId = uid :=
            applyUserStatusPatch_userId _ uid p now hpid
              (fun o2 ho2 => by cases ho2; exact userId_of_findUserStatus hf)
          exact ⟨t, by rw [huid2, ← userId_of_findUserStatus hf]; exact ht⟩
    · exact hInv.pointers st (List.mem_of_mem_filter hst') sid hptr
  · intro s hs hact
    have hne := hnoactive s hs hact
    obtain ⟨st, hf, hset, hp⟩ := hInv.owned s hs hact
    refine ⟨st, ?_, hset, hp⟩
    rw [show updateUserStatus uid p now fs =
        putUserStatusDoc (applyUserStatusPatch (findUserStatus uid fs)
          uid p now) fs from rfl]
    rw [findUserStatus_putUserStatusDoc]
    rw [if_neg (fun hc => hne ((huid ▸ hc : uid = s.userId)).symm)]
    exact hf

theorem invariant_completeCheckinSession (sid : String)
    (notes : Option String) (now : Int) (fs : Firestore)
    (hInv : CheckinInvariant fs)
    (hpre : ∀ session, findSession sid fs = some session →
      ∀ s ∈ fs.sessions, s.status = .active → s.userId = session.userId →
        s.sessionId = sid) :
    CheckinInvariant (completeCheckinSession sid notes now fs).1 := by
  cases hf : findSession sid fs with
  | none =>
      simp only [completeCheckinSession, hf]
      exact hInv
  | some session =>
      have hsid := sessionId_of_findSession hf
      simp only [completeCheckinSession, hf]
      refine invariant_updateUserStatus_checkout session.userId _ now _
        (invariant_putSessionDoc_completed _ session sid fs hInv hf rfl rfl
          rfl rfl) rfl rfl ?_
      intro s hs hact
      rcases List.mem_cons.mp hs with rfl | hs'
      · cases hact
      · have hsf := List.mem_of_mem_filter hs'
        have hkey := (List.mem_filter.mp hs').2
        simp only [bne_iff_ne, ne_eq, decide_eq_true_eq] at hkey
        intro hown
        exact hkey ((hpre session hf s hsf hact hown).trans hsid.symm)

theorem invariant_startBreakProjUpdate (uid bid : String) (bt : BreakType)
    (now : Int) (fs : Firestore) (hInv : CheckinInvariant fs) :
    CheckinInvariant (startBreakProjUpdate uid bid bt now fs) := by
  simp only [startBreakProjUpdate]
  split
  · split
    · exact invariant_updateUserStatus_keep uid _ now fs hInv rfl rfl
        (Or.inr (Or.inr rfl))
    · exact hInv
  · exact hInv

theorem invariant_endBreakProjUpdate (uid : String) (dur now : Int)
    (fs : Firestore) (hInv : CheckinInvariant fs) :
    CheckinInvariant (endBreakProjUpdate uid dur now fs) := by
  simp only [endBreakProjUpdate]
  split
  · split
    · exact invariant_updateUserStatus_keep uid _ now fs hInv rfl rfl
        (Or.inr (Or.inl rfl))
    · exact hInv
  · exact hInv

theorem invariant_addStatusUpdateProjUpdate (uid stt : String) (now : Int)
    (fs : Firestore) (hInv : CheckinInvariant fs) :
    CheckinInvariant (addStatusUpdateProjUpdate uid stt now fs) := by
  simp only [addStatusUpdateProjUpdate]
  split
  · split
    · exact invariant_updateUserStatus_keep uid _ now fs hInv rfl rfl
        (Or.inl rfl)
    · exact hInv
  · exact hInv

theorem invariant_endBreak (sid bid uid : String) (notes : Option String)
    (now : Int) (fs : Firestore) (hInv : CheckinInvariant fs) :
    CheckinInvariant (endBreak sid bid uid notes now fs).1 := by
  simp only [endBreak]
  split
  · exact hInv
  · split
    · exact invariant_transfer _ fs rfl rfl hInv
    · rename_i breakData hb session hf
      exact invariant_endBreakProjUpdate uid _ now _
        (invariant_putSessionDoc_rewrite _ session sid _
          (invariant_transfer _ fs rfl rfl hInv) hf rfl rfl rfl rfl)

theorem invariant_startBreak (sid uid : String) (bt : BreakType)
    (notes : Option String) (now : Int) (fs : Firestore)
    (hInv : CheckinInvariant fs) :
    CheckinInvariant (startBreak sid uid bt notes now fs).1 := by
  simp only [startBreak]
  split
  · exact invariant_transfer _ fs rfl rfl hInv
  · rename_i session hf
    exact invariant_startBreakProjUpdate uid _ bt now _
      (invariant_putSessionDoc_rewrite _ session sid _
        (invariant_transfer _ fs rfl rfl hInv) hf rfl rfl rfl rfl)

theorem invariant_addStatusUpdate (sid uid un stt : String) (now : Int)
    (fs : Firestore) (hInv : CheckinInvariant fs) :
    CheckinInvariant (addStatusUpdate sid uid un stt now fs).1 := by
  simp only [addStatusUpdate]
  split
  · exact invariant_transfer _ fs rfl rfl hInv
  · rename_i session hf
    exact invariant_addStatusUpdateProjUpdate uid stt now _
      (invariant_putSessionDoc_rewrite _ session sid _
        (invariant_transfer _ fs rfl rfl hInv) hf rfl rfl rfl rfl)

theorem pointer_updateUserStatus (uid v : String) (p : UserStatusPatch)
    (now : Int) (fs : Firestore) (sidT : String)
    (hpid : p.userId = none) (hpp : p.currentSessionId = none)
    (h : ∃ stU, findUserStatus v fs = some stU ∧
      stU.currentSessionId = some sidT) :
    ∃ stU, findUserStatus v (updateUserStatus uid p now fs) = some stU ∧
      stU.currentSessionId = some sidT := by
  obtain ⟨stU, hf, hp⟩ := h
  have huid : (applyUserStatusPatch (findUserStatus uid fs) uid p now).userId
      = uid :=
    applyUserStatusPatch_userId _ uid p now hpid
      (fun o ho => userId_of_findUserStatus ho)
  by_cases hv : uid = v
  · subst hv
    refine ⟨applyUserStatusPatch (findUserStatus uid fs) uid p now, ?_, ?_⟩
    · rw [show updateUserStatus uid p now fs =
          putUserStatusDoc (applyUserStatusPatch (findUserStatus uid fs)
            uid p now) fs from rfl]
      rw [findUserStatus_putUserStatusDoc, if_pos huid]
    · rw [applyUserStatusPatch_ptr _ uid p now hpp, hf]
      exact hp
  · refine ⟨stU, ?_, hp⟩
    rw [show updateUserStatus uid p now fs =
        putUserStatusDoc (applyUserStatusPatch (findUserStatus uid fs)
          uid p now) fs from rfl]
    rw [findUserStatus_putUserStatusDoc, if_neg (fun hc => hv (huid ▸ hc))]
    exact hf

theorem pointer_endBreakProjUpdate (uid v : String) (dur now : Int)
    (fs : Firestore) (sidT : String)
    (h : ∃ stU, findUserStatus v fs = some stU ∧
      stU.currentSessionId = some sidT) :
    ∃ stU, findUserStatus v (endBreakProjUpdate uid dur now fs) = some stU ∧
      stU.currentSessionId = some sidT := by
  simp only [endBreakProjUpdate]
  split
  · split
    · exact pointer_updateUserStatus uid v _ now fs sidT rfl rfl h
    · exact h
  · exact h

theorem pointer_endBreak (sid bid uid v : String) (notes : Option String)
    (now : Int) (fs : Firestore) (sidT : String)
    (h : ∃ stU, findUserStatus v fs = some stU ∧
      stU.currentSessionId = some sidT) :
    ∃ stU, findUserStatus v (endBreak sid bid uid notes now fs).1 =
      some stU ∧ stU.currentSessionId = some sidT := by
  simp only [endBreak]
  split
  · exact h
  · split
    · exact h
    · exact pointer_endBreakProjUpdate uid v _ now _ sidT h

theorem hpre_of_pointer (g : Firestore) (hInvG : CheckinInvariant g)
    (u sidT : String)
    (hstU : ∃ stU, findUserStatus u g = some stU ∧
      stU.currentSessionId = some sidT) :
    ∀ session, findSession sidT g = some session →
      ∀ s ∈ g.sessions, s.status = .active → s.userId = session.userId →
        s.sessionId = sidT := by
  obtain ⟨stU, hfU, hpU⟩ := hstU
  intro session hfs s hs hact hown
  have hsid := sessionId_of_findSession hfs
  have hsmem := List.mem_of_find?_eq_some hfs
  have hwkS := hInvG.wellKeyed session hsmem
  obtain ⟨t, ht⟩ := hInvG.pointers stU (List.mem_of_find?_eq_some hfU)
    sidT hpU
  have huStU : stU.userId = u := userId_of_findUserStatus hfU
  rw [huStU] at ht
  have hkeyeq : generateSessionId session.userId session.checkinTime =
      generateSessionId u t := by
    rw [← hwkS, hsid]
    exact ht
  have hub := (generateSessionId_inj hkeyeq).1
  obtain ⟨stX, hfX, hsetX, hpX⟩ := hInvG.owned s hs hact
  rw [hown, hub, hfU] at hfX
  cases hfX
  rw [hpU] at hpX
  exact (Option.some.injEq _ _).mp hpX.symm

theorem getUserCurrentState_inv (u : String) (fs : Firestore)
    (us : UserCurrentState) (cs : CheckinSession)
    (h : getUserCurrentState u fs = some us)
    (hcs : us.currentSession = some cs) :
    findUserStatus u fs = some us.status ∧
      us.status.currentSessionId = some cs.sessionId ∧
      findSession cs.sessionId fs = some cs := by
  cases hf : findUserStatus u fs with
  | none =>
      simp only [getUserCurrentState, hf] at h
      exact Option.noConfusion h
  | some st =>
      cases hcid : st.currentSessionId with
      | none =>
          simp only [getUserCurrentState, hf, hcid, Option.some.injEq] at h
          subst h
          cases hcs
      | some sid0 =>
          cases hfs : findSession sid0 fs with
          | none =>
              simp only [getUserCurrentState, hf, hcid, hfs,
                Option.some.injEq] at h
              subst h
              cases hcs
          | some sess =>
              simp only [getUserCurrentState, hf, hcid, hfs,
                Option.some.injEq] at h
              subst h
              simp only [Option.some.injEq] at hcs
              subst hcs
              have hse := sessionId_of_findSession hfs
              refine ⟨rfl, ?_, ?_⟩
              · rw [hse]
                exact hcid
              · rw [hse]
                exact hfs

theorem frame_updateStatusReminder (uid : String) (p : StatusReminderPatch)
    (fs : Firestore) :
    (updateStatusReminder uid p fs).sessions = fs.sessions ∧
      (updateStatusReminder uid p fs).userStatuses = fs.userStatuses := by
  simp only [updateStatusReminder]
  split
  · exact ⟨rfl, rfl⟩
  · exact ⟨rfl, rfl⟩

theorem frame_sendStatusReminder (uid : String) (sendOk : Bool) (now : Int)
    (fs : Firestore) :
    (sendStatusReminder uid sendOk now fs).1.sessions = fs.sessions ∧
      (sendStatusReminder uid sendOk now fs).1.userStatuses =
        fs.userStatuses := by
  simp only [sendStatusReminder]
  split
  · exact ⟨rfl, rfl⟩
  · split
    · exact ⟨rfl, rfl⟩
    · split
      · split
        · exact frame_updateStatusReminder _ _ fs
        · exact ⟨rfl, rfl⟩
      · exact ⟨rfl, rfl⟩

theorem frame_processReminder (sendOk : Bool) (now : Int)
    (acc : Firestore × List String) (r : StatusReminder) :
    (processReminder sendOk now acc r).1.sessions = acc.1.sessions ∧
      (processReminder sendOk now acc r).1.userStatuses =
        acc.1.userStatuses := by
  simp only [processReminder]
  split
  · exact ⟨rfl, rfl⟩
  · split
    · exact ⟨rfl, rfl⟩
    · split
      · exact ⟨rfl, rfl⟩
      · split
        · split
          · exact ⟨rfl, rfl⟩
          · exact frame_sendStatusReminder _ sendOk now acc.1
        · exact ⟨rfl, rfl⟩

theorem frame_checkAndSend (sendOk : Bool) (now : Int) (fs : Firestore) :
    (checkAndSendStatusReminders sendOk now fs).1.sessions = fs.sessions ∧
      (checkAndSendStatusReminders sendOk now fs).1.userStatuses =
        fs.userStatuses := by
  suffices hgen : ∀ (l : List StatusReminder) (acc : Firestore × List String),
      (l.foldl (processReminder sendOk now) acc).1.sessions =
        acc.1.sessions ∧
      (l.foldl (processReminder sendOk now) acc).1.userStatuses =
        acc.1.userStatuses by
    exact hgen (getActiveStatusReminders fs) (fs, [])
  intro l
  induction l with
  | nil => intro acc; exact ⟨rfl, rfl⟩
  | cons r l ih =>
      intro acc
      rw [List.foldl_cons]
      refine ⟨?_, ?_⟩
      · rw [(ih (processReminder sendOk now acc r)).1]
        exact (frame_processReminder sendOk now acc r).1
      · rw [(ih (processReminder sendOk now acc r)).2]
        exact (frame_processReminder sendOk now acc r).2

theorem invariant_handleCheckin (u un t : String) (now : Int)
    (fs : Firestore) (hInv : CheckinInvariant fs) :
    CheckinInvariant (handleCheckin u un t now fs).1 := by
  simp only [handleCheckin, getUserStatus]
  split
  · rename_i st hst
    split
    · exact hInv
    · rename_i hgate
      refine invariant_createCheckinSession u un (some t) now fs hInv ?_
      intro s hs hact hu
      obtain ⟨st2, hf2, hset2, _⟩ := hInv.owned s hs hact
      rw [hu, hst] at hf2
      cases hf2
      exact hgate hset2
  · rename_i hnone0
    refine invariant_createCheckinSession u un (some t) now fs hInv ?_
    intro s hs hact hu
    obtain ⟨st2, hf2, _, _⟩ := hInv.owned s hs hact
    rw [hu, hnone0] at hf2
    cases hf2

theorem invariant_handleBreakStart (u : String) (bt : Option BreakType)
    (notes : String) (now : Int) (fs : Firestore)
    (hInv : CheckinInvariant fs) :
    CheckinInvariant (handleBreakStart u bt notes now fs).1 := by
  simp only [handleBreakStart]
  split
  · exact hInv
  · split
    · exact hInv
    · split
      · exact hInv
      · split
        · exact hInv
        · split
          · exact hInv
          · split
            · exact invariant_startBreak _ u _ _ now fs hInv
            · exact invariant_startBreak _ u _ _ now fs hInv

theorem invariant_handleBreakEnd (u t : String) (now : Int)
    (fs : Firestore) (hInv : CheckinInvariant fs) :
    CheckinInvariant (handleBreakEnd u t now fs).1 := by
  simp only [handleBreakEnd]
  split
  · exact hInv
  · split
    · exact hInv
    · split
      · split
        · exact invariant_endBreak _ _ u _ now fs hInv
        · exact invariant_endBreak _ _ u _ now fs hInv
      · exact hInv

theorem invariant_handleStatusUpdate (u un t : String) (now : Int)
    (fs : Firestore) (hInv : CheckinInvariant fs) :
    CheckinInvariant (handleStatusUpdate u un t now fs).1 := by
  simp only [handleStatusUpdate]
  split
  · exact hInv
  · split
    · exact hInv
    · split
      · exact hInv
      · split
        · exact hInv
        · split
          · exact invariant_addStatusUpdate _ u un t now fs hInv
          · exact invariant_addStatusUpdate _ u un t now fs hInv

theorem invariant_handleCheckout (u t : String) (now : Int)
    (fs : Firestore) (hInv : CheckinInvariant fs) :
    CheckinInvariant (handleCheckout u t now fs).1 := by
  simp only [handleCheckout]
  split
  · exact hInv
  · rename_i us hgucs
    split
    · exact hInv
    · split
      · exact hInv
      · rename_i cs hcs
        obtain ⟨hfst, hptr, hfsess⟩ :=
          getUserCurrentState_inv u fs us cs hgucs hcs
        by_cases hob : us.status.status = .onBreak
        · rw [if_pos hob]
          cases hab : us.activeBreak with
          | some ab =>
              simp only [hab]
              cases hr2 : (endBreak cs.sessionId ab.breakId u
                  (some "Auto-ended due to checkout") now fs).2 with
              | error e =>
                  simp only [hr2]
                  exact invariant_endBreak _ _ u _ now fs hInv
              | ok br =>
                  simp only [hr2]
                  have hInvE := invariant_endBreak cs.sessionId ab.breakId u
                    (some "Auto-ended due to checkout") now fs hInv
                  have hpreE := hpre_of_pointer _ hInvE u cs.sessionId
                    (pointer_endBreak cs.sessionId ab.breakId u u
                      (some "Auto-ended due to checkout") now fs
                      cs.sessionId ⟨us.status, hfst, hptr⟩)
                  have hc := invariant_completeCheckinSession cs.sessionId
                    (some t) now _ hInvE hpreE
                  split
                  · exact hc
                  · split
                    · exact hc
                    · split
                      · exact hc
                      · exact hc
          | none =>
              simp only [hab]
              have hpreF := hpre_of_pointer fs hInv u cs.sessionId
                ⟨us.status, hfst, hptr⟩
              have hc := invariant_completeCheckinSession cs.sessionId
                (some t) now fs hInv hpreF
              split
              · exact hc
              · split
                · exact hc
                · split
                  · exact hc
                  · exact hc
        · rw [if_neg hob]
          have hpreF := hpre_of_pointer fs hInv u cs.sessionId
            ⟨us.status, hfst, hptr⟩
          have hc := invariant_completeCheckinSession cs.sessionId
            (some t) now fs hInv hpreF
          split
          · rename_i e he
            exact Option.noConfusion he
          · split
            · exact hc
            · split
              · exact hc
              · split
                · exact hc
                · exact hc

theorem invariant_applyOp (fs : Firestore) (op : Op)
    (hInv : CheckinInvariant fs) : CheckinInvariant (applyOp fs op) := by
  cases op with
  | checkin u un t now => exact invariant_handleCheckin u un t now fs hInv
  | checkout u t now => exact invariant_handleCheckout u t now fs hInv
  | breakStart u bt n now =>
      exact invariant_handleBreakStart u bt n now fs hInv
  | breakEnd u t now => exact invariant_handleBreakEnd u t now fs hInv
  | statusUpdate u un t now =>
      exact invariant_handleStatusUpdate u un t now fs hInv
  | reminderTick ok now =>
      exact invariant_transfer _ fs (frame_checkAndSend ok now fs).1
        (frame_checkAndSend ok now fs).2 hInv

theorem invariant_runOps (fs : Firestore) (ops : List Op)
    (hInv : CheckinInvariant fs) : CheckinInvariant (runOps fs ops) := by
  induction ops generalizing fs with
  | nil => exact hInv
  | cons op ops ih =>
      simp only [runOps, List.foldl_cons]
      exact ih (applyOp fs op) (invariant_applyOp fs op hInv)

theorem invariant_empty (tz : String) :
    CheckinInvariant (emptyFirestore tz) := by
  refine ⟨List.Pairwise.nil, ?_, ?_, ?_⟩
  · intro s hs
    cases hs
  · intro st hst
    cases hst
  · intro s hs
    cases hs

/-- C2: while a user's stored status is `checked-in` or `on-break`, a
check-in command is rejected with the already-active outcome and the
store is returned unchanged; consequently, over every sequential trace
of commands and poll ticks from an empty deployment, no user ever has
two distinct sessions with `status = active`. -/
theorem C2_checkin_gate_and_unique_active :
    (∀ (u un t : String) (now : Int) (fs : Firestore) (st : UserStatus),
      findUserStatus u fs = some st →
      (st.status = .checkedIn ∨ st.status = .onBreak) →
      handleCheckin u un t now fs = (fs, .alreadyActive)) ∧
    (∀ (tz : String) (ops : List Op) (s1 s2 : CheckinSession),
      s1 ∈ (runOps (emptyFirestore tz) ops).sessions →
      s2 ∈ (runOps (emptyFirestore tz) ops).sessions →
      s1.userId = s2.userId → s1.status = .active → s2.status = .active →
      s1 = s2) := by
  constructor
  · intro u un t now fs st hf hset
    simp only [handleCheckin, getUserStatus, hf]
    rw [if_pos hset]
  · intro tz ops s1 s2 h1 h2 hu ha1 ha2
    have hInv := invariant_runOps (emptyFirestore tz) ops (invariant_empty tz)
    obtain ⟨st1, hf1, _, hp1⟩ := hInv.owned s1 h1 ha1
    obtain ⟨st2, hf2, _, hp2⟩ := hInv.owned s2 h2 ha2
    rw [hu, hf2] at hf1
    cases hf1
    rw [hp2] at hp1
    have hkey : s2.sessionId = s1.sessionId := by
      exact (Option.some.injEq _ _).mp hp1
    exact (eq_of_pairwise_key hInv.keys h2 h1 hkey).symm

/-- The checked-in user of the C2 witness gate store. -/
def c2GateStatus : UserStatus :=
  { userId := "u2", username := "kira", status := .checkedIn,
    currentSessionId := some "u2_19700101_0", lastCheckin := some 0,
    lastCheckout := none, lastActivity := 0, timezone := some "UTC",
    currentSession := none }

/-- Store for the gate half of the C2 witness. -/
def c2GateStore : Firestore :=
  { emptyFirestore "UTC" with userStatuses := [c2GateStatus] }

/-- The C2 witness trace: a check-in followed by a second check-in of
the same user. -/
def c2Ops : List Op :=
  [.checkin "u2" "kira" "start" 0, .checkin "u2" "kira" "again" 5000]

/-- The single session the C2 witness trace creates. -/
def c2Session : CheckinSession :=
  { sessionId := "u2_19700101_0", userId := "u2", username := "kira",
    date := "1970-01-01", checkinTime := 0, checkoutTime := none,
    status := .active, totalBreakTime := 0, totalWorkTime := none,
    notes := some { checkin := some "start", checkout := none },
    timezone := "UTC", createdAt := 0, updatedAt := 0, breakCount := 0,
    statusUpdateCount := 0, lastWorkStatus := none }

/-- C2 witness: a checked-in user's second check-in leaves the gate
store untouched with the already-active outcome, and the two-check-in
trace ends with exactly the one active session. -/
theorem C2_checkin_gate_and_unique_active_witness :
    handleCheckin "u2" "kira" "x" 9 c2GateStore =
      (c2GateStore, .alreadyActive) ∧
    (runOps (emptyFirestore "UTC") c2Ops).sessions = [c2Session] ∧
    c2Session = c2Session := by
  refine ⟨C2_checkin_gate_and_unique_active.1 "u2" "kira" "x" 9 c2GateStore
      c2GateStatus rfl (Or.inl rfl), rfl,
    C2_checkin_gate_and_unique_active.2 "UTC" c2Ops c2Session c2Session
      (by decide) (by decide) rfl rfl rfl⟩
